import Mathlib

/-!
Verification of the data-file loading pipeline of `src/server/obj-init.c`
(PWMAngband): a shallow embedding of the record parsers (projections, object
bases, object kinds, curses, slays, brands, egos, artifacts), their finish
phases and cleanup, together with theorems about table materialization,
error handling and cross-reference resolution.
-/

namespace ObjInit
/-- The `enum parser_error` codes returned by directive callbacks
(only the codes reachable from the modelled callbacks are listed). -/
inductive ParseError where
  | NONE
  | MISSING_RECORD_HEADER
  | ELEMENT_NAME_MISMATCH
  | INVALID_MESSAGE
  | INVALID_COLOR
  | INVALID_FLAG
  | INVALID_VALUE
  | INVALID_DICE
  | INVALID_EXPRESSION
  | BAD_EXPRESSION_STRING
  | UNBOUND_EXPRESSION
  | UNRECOGNISED_TVAL
  | UNRECOGNISED_SLAY
  | UNRECOGNISED_BRAND
  | UNRECOGNISED_CURSE
  | INVALID_ITEM_NUMBER
  | MISSING_FIELD
  | INTERNAL
  | UNDEFINED_DIRECTIVE
  | OUT_OF_BOUNDS
  | INVALID_ALLOCATION
  | NO_KIND_FOR_EGO_TYPE
  | NOT_SPECIAL_ARTIFACT
  deriving DecidableEq, Repr

/-- Outcome of one directive callback: either an `enum parser_error` return
value, or an abort (a failed `my_assert` / dereference of a null pointer). -/
inductive Res where
  | ret (e : ParseError)
  | crash
  deriving DecidableEq, Repr

/-- Results of `parser_getrand`: the `struct random` value base + dice `d` sides + m_bonus. -/
structure Rand where
  base : Int := 0
  dice : Int := 0
  sides : Int := 0
  m_bonus : Int := 0
  deriving DecidableEq, Repr

/-- Modelled from the spec: an expression (spec section 4.5) is a base-value selector
(identified by its position in the fixed accessor-function table, `none` when the
name is unresolvable) plus a parsed arithmetic-operation sequence; the expression
constructors live outside `src/`. -/
structure ExpressionT where
  base : Option Nat := none
  ops : List Int := []
  deriving DecidableEq, Repr

/-- Modelled from the spec: a dice descriptor (spec section 4.5) — fixed count and
sides plus named symbolic terms, each optionally bound to an expression (the dice
implementation is not under `src/`). -/
structure Dice where
  count : Int := 0
  sides : Int := 0
  terms : List (String × Option ExpressionT) := []
  deriving DecidableEq, Repr

/-- Per-element flags stored in `struct element_info` (`EL_INFO_IGNORE`, `EL_INFO_HATES`). -/
inductive ElemFlag where
  | IGNORE
  | HATES
  deriving DecidableEq, Repr

/-- One entry of an `el_info[ELEM_MAX]` array. -/
structure ElementInfo where
  res_level : Int := 0
  flags : Finset ElemFlag := ∅
  deriving DecidableEq

/-- Projection pvp-flag bits (`ATT_SAVE`, `ATT_DAMAGE`, `ATT_NON_PHYS`, `ATT_RAW`). -/
inductive AttFlag where
  | SAVE
  | DAMAGE
  | NON_PHYS
  | RAW
  deriving DecidableEq, Repr

/-- External collaborators of obj-init.c (name tables from list-*.h headers and
lookup helpers defined in other translation units). Each field is modelled from
the spec: these are the "line source"/lookup collaborators that are not under
`src/`, abstracted as functions with the failure conventions the call sites test
for (`-1`, `FLAG_END`, null — here `none`). -/
structure Env where
  elemNames : List String := []
  messageLookup : String → Int := fun _ => -1
  colorTextToAttr : String → Int := fun _ => -1
  colorCharToAttr : Char → Int := fun _ => -1
  rInfoFlagLookup : String → Option Nat := fun _ => none
  objFlagNames : List String := []
  kindFlagNames : List String := []
  tvalFindIdx : String → Int := fun _ => -1
  grabRandValue : String → Option (Nat × Rand) := fun _ => none
  grabIndexAndInt : List String → String → String → Option (Nat × Int) := fun _ _ _ => none
  diceParseString : String → Option Dice := fun _ => none
  spellValueBase : String → Option Nat := fun _ => none
  exprOpsString : String → Option (List Int) := fun _ => none
  diceBindExpression : Dice → String → ExpressionT → Option Dice := fun _ _ _ => none

/-! ## Generic helpers -/

/-- Replace element `i` of a list by `f` of its old value (mutation through a
pointer into an array). Out-of-range indices leave the list unchanged. -/
def listModify (l : List α) (i : Nat) (f : α → α) : List α :=
  match l, i with
  | [], _ => []
  | x :: xs, 0 => f x :: xs
  | x :: xs, n + 1 => x :: listModify xs n f

/-- Apply `f` to the last element of a list (used by the spec-side table builder,
where the record under construction sits at the highest index). -/
def updateLast (f : α → α) : List α → List α
  | [] => []
  | [x] => [f x]
  | x :: y :: xs => x :: updateLast f (y :: xs)

/-- Character-level splitting at delimiters (the groups between delimiter
characters, empty groups included). -/
def split_chars (delim : Char → Bool) : List Char → List (List Char)
  | [] => [[]]
  | c :: cs =>
    if delim c then [] :: split_chars delim cs
    else
      match split_chars delim cs with
      | [] => [[c]]
      | g :: gs => (c :: g) :: gs

/-- Splitting of a composite flag/value string by `strtok(s, " |")`: maximal
nonempty runs of non-delimiter characters. -/
def strtok_split (s : String) : List String :=
  ((split_chars (fun c => c == ' ' || c == '|') s.toList).map String.mk).filter
    (· ≠ "")

/-- Shared shape of the flag/value tokenizer loops of obj-init.c: scan the tokens
in order; a matched token (`found t = true`) applies its effects (`app`) and
scanning continues; the first unmatched token stops the loop (`break`), and the
callback then reports `err` while keeping everything already applied. -/
def tok_loop (found : String → Bool) (app : σ → String → σ) (err : ParseError) :
    σ → List String → ParseError × σ
  | st, [] => (ParseError.NONE, st)
  | st, t :: ts =>
    if found t then tok_loop found app err (app st t) ts else (err, st)

/-- Loop body of `grab_flag` over a flag-name table, tracking the position. -/
def grab_flag_loop : List String → String → Nat → Option Nat
  | [], _, _ => none
  | n :: ns, t, i => if t = n then some i else grab_flag_loop ns t (i + 1)

/-- Modelled from the spec: `grab_flag` (a parser utility outside `src/`) resolves
a token against an ordered flag-name table; `some i` is the matched position (the
bit the caller sets), `none` is the unmatched-token failure the call sites test. -/
def grab_flag (names : List String) (t : String) : Option Nat :=
  grab_flag_loop names t 0

/-- Decomposition performed by `sscanf(flag_name, "%[^_]_%s", prefix, suffix)` in
`grab_element_flag`: a nonempty prefix before the first underscore and a nonempty
suffix after it, or failure. -/
def split_underscore (s : String) : Option (String × String) :=
  let cs := s.toList
  let pre := cs.takeWhile fun c => c ≠ '_'
  match cs.dropWhile fun c => c ≠ '_' with
  | [] => none
  | _ :: rest =>
    if pre = [] ∨ rest = [] then none
    else some (String.mk pre, String.mk rest)

/-- Scan of `list_element_names` inside `grab_element_flag`: the first index whose
name equals the suffix and whose prefix is IGNORE or HATES, with the flag to set. -/
def grab_element_loop (pre suf : String) : Nat → List String → Option (Nat × ElemFlag)
  | _, [] => none
  | i, n :: ns =>
    if suf = n ∧ pre = "IGNORE" then some (i, ElemFlag.IGNORE)
    else if suf = n ∧ pre = "HATES" then some (i, ElemFlag.HATES)
    else grab_element_loop pre suf (i + 1) ns

/-- Token analysis of `grab_element_flag` (obj-init.c lines 33-61), separated from
the `el_info` update so that success is visibly independent of the array contents. -/
def grab_element_match (elemNames : List String) (t : String) : Option (Nat × ElemFlag) :=
  match split_underscore t with
  | none => none
  | some (pre, suf) => grab_element_loop pre suf 0 elemNames

/-- Embeds `grab_element_flag`: returns whether the token matched and the updated
`el_info` array. -/
def grab_element_flag (elemNames : List String) (info : List ElementInfo) (t : String) :
    Bool × List ElementInfo :=
  match grab_element_match elemNames t with
  | none => (false, info)
  | some (i, fl) =>
    (true, listModify info i fun e => { e with flags := insert fl e.flags })

/-! ## Projections (init_parse_projection and friends) -/

/-- The fields of `struct projection` touched by obj-init.c. Strings are `none`
while unset (`mem_zalloc` leaves null pointers); the intrusive `next` link is
represented by the containing list. `ptype` embeds the C field named `type`. -/
structure Projection where
  index : Nat := 0
  name : Option String := none
  ptype : Option String := none
  desc : Option String := none
  blind_desc : Option String := none
  lash_desc : Option String := none
  numerator : Nat := 0
  denominator : Rand := {}
  divisor : Nat := 0
  damage_cap : Nat := 0
  msgt : Int := 0
  obvious : Bool := false
  color : Int := 0
  flags : Finset AttFlag := ∅
  threat : Option String := none
  threat_flag : Nat := 0
  deriving DecidableEq

/-- One projection.txt directive with its already-coerced arguments (the grammar
registered by `init_parse_projection`). -/
inductive PDir where
  | code (c : String)
  | name (s : String)
  | ptype (s : String)
  | desc (s : String)
  | blind_desc (s : String)
  | lash_desc (s : String)
  | numerator (n : Nat)
  | denominator (r : Rand)
  | divisor (n : Nat)
  | damage_cap (n : Nat)
  | msgt (s : String)
  | obvious (n : Nat)
  | color (s : String)
  | pvp_flags (o : Option String)
  | threat (s : String)
  | threat_flag (s : String)
  deriving DecidableEq, Repr

/-- Whether a directive is the record-creating `code` directive. -/
def PDir.isCode : PDir → Bool
  | .code _ => true
  | _ => false

/-- Embeds `parse_projection_code`: pushes a fresh zeroed record with the next
index onto the accumulation list, then checks the code against the element name
at that index (the record stays pushed even when the check fails). -/
def parse_projection_code (env : Env) (l : List Projection) (c : String) :
    Res × List Projection :=
  let index : Nat := match l with | [] => 0 | h :: _ => h.index + 1
  let l' := ({ index := index } : Projection) :: l
  if index < env.elemNames.length ∧ c ≠ env.elemNames.getD index "" then
    (.ret .ELEMENT_NAME_MISMATCH, l')
  else (.ret .NONE, l')

/-- Embeds `parse_projection_name`. -/
def parse_projection_name (l : List Projection) (s : String) : Res × List Projection :=
  match l with
  | [] => (.ret .MISSING_RECORD_HEADER, [])
  | p :: t => (.ret .NONE, { p with name := some s } :: t)

/-- Embeds `parse_projection_type`. -/
def parse_projection_type (l : List Projection) (s : String) : Res × List Projection :=
  match l with
  | [] => (.ret .MISSING_RECORD_HEADER, [])
  | p :: t => (.ret .NONE, { p with ptype := some s } :: t)

/-- Embeds `parse_projection_desc`. -/
def parse_projection_desc (l : List Projection) (s : String) : Res × List Projection :=
  match l with
  | [] => (.ret .MISSING_RECORD_HEADER, [])
  | p :: t => (.ret .NONE, { p with desc := some s } :: t)

/-- Embeds `parse_projection_blind_desc`. -/
def parse_projection_blind_desc (l : List Projection) (s : String) : Res × List Projection :=
  match l with
  | [] => (.ret .MISSING_RECORD_HEADER, [])
  | p :: t => (.ret .NONE, { p with blind_desc := some s } :: t)

/-- Embeds `parse_projection_lash_desc`. -/
def parse_projection_lash_desc (l : List Projection) (s : String) : Res × List Projection :=
  match l with
  | [] => (.ret .MISSING_RECORD_HEADER, [])
  | p :: t => (.ret .NONE, { p with lash_desc := some s } :: t)

/-- Embeds `parse_projection_numerator`. -/
def parse_projection_numerator (l : List Projection) (n : Nat) : Res × List Projection :=
  match l with
  | [] => (.ret .MISSING_RECORD_HEADER, [])
  | p :: t => (.ret .NONE, { p with numerator := n } :: t)

/-- Embeds `parse_projection_denominator`. -/
def parse_projection_denominator (l : List Projection) (r : Rand) : Res × List Projection :=
  match l with
  | [] => (.ret .MISSING_RECORD_HEADER, [])
  | p :: t => (.ret .NONE, { p with denominator := r } :: t)

/-- Embeds `parse_projection_divisor`. -/
def parse_projection_divisor (l : List Projection) (n : Nat) : Res × List Projection :=
  match l with
  | [] => (.ret .MISSING_RECORD_HEADER, [])
  | p :: t => (.ret .NONE, { p with divisor := n } :: t)

/-- Embeds `parse_projection_damage_cap`. -/
def parse_projection_damage_cap (l : List Projection) (n : Nat) : Res × List Projection :=
  match l with
  | [] => (.ret .MISSING_RECORD_HEADER, [])
  | p :: t => (.ret .NONE, { p with damage_cap := n } :: t)

/-- Embeds `parse_projection_message_type` (note: `my_assert(projection)`, so a
missing record aborts instead of returning an error). -/
def parse_projection_message_type (env : Env) (l : List Projection) (s : String) :
    Res × List Projection :=
  match l with
  | [] => (.crash, [])
  | p :: t =>
    let msg_index := env.messageLookup s
    if msg_index < 0 then (.ret .INVALID_MESSAGE, p :: t)
    else (.ret .NONE, { p with msgt := msg_index } :: t)

/-- Embeds `parse_projection_obvious`. -/
def parse_projection_obvious (l : List Projection) (n : Nat) : Res × List Projection :=
  match l with
  | [] => (.ret .MISSING_RECORD_HEADER, [])
  | p :: t => (.ret .NONE, { p with obvious := n = 1 } :: t)

/-- Embeds `parse_projection_color` (again `my_assert(projection)`); a
multi-character argument goes through the text lookup, otherwise the first
character (NUL for an empty string) goes through the char lookup. -/
def parse_projection_color (env : Env) (l : List Projection) (s : String) :
    Res × List Projection :=
  match l with
  | [] => (.crash, [])
  | p :: t =>
    let attr := if s.length > 1 then env.colorTextToAttr s
                else env.colorCharToAttr (s.toList.headD (Char.ofNat 0))
    if attr < 0 then (.ret .INVALID_COLOR, p :: t)
    else (.ret .NONE, { p with color := attr } :: t)

/-- Token recognizer of the `parse_projection_pvp_flags` loop. -/
def pvp_flag_found (t : String) : Bool :=
  t = "SAVE" || t = "DAMAGE" || t = "NON_PHYS" || t = "RAW"

/-- Effect of one recognized token of `parse_projection_pvp_flags`. -/
def pvp_flag_app (fs : Finset AttFlag) (t : String) : Finset AttFlag :=
  if t = "SAVE" then insert AttFlag.SAVE fs
  else if t = "DAMAGE" then insert AttFlag.DAMAGE fs
  else if t = "NON_PHYS" then insert AttFlag.NON_PHYS fs
  else if t = "RAW" then insert AttFlag.RAW fs
  else fs

/-- Embeds `parse_projection_pvp_flags`: optional argument, strtok loop over
" |", unknown token stops scanning with `PARSE_ERROR_INVALID_FLAG` while the
already-set bits stay applied. -/
def parse_projection_pvp_flags (l : List Projection) (o : Option String) :
    Res × List Projection :=
  match l with
  | [] => (.ret .MISSING_RECORD_HEADER, [])
  | p :: t =>
    match o with
    | none => (.ret .NONE, p :: t)
    | some s =>
      let r := tok_loop pvp_flag_found pvp_flag_app .INVALID_FLAG p.flags (strtok_split s)
      (.ret r.1, { p with flags := r.2 } :: t)

/-- Embeds `parse_projection_threat`. -/
def parse_projection_threat (l : List Projection) (s : String) : Res × List Projection :=
  match l with
  | [] => (.ret .MISSING_RECORD_HEADER, [])
  | p :: t => (.ret .NONE, { p with threat := some s } :: t)

/-- Embeds `parse_projection_threat_flag` (`lookup_flag` over `r_info_flags`;
`FLAG_END` is modelled as `none`). -/
def parse_projection_threat_flag (env : Env) (l : List Projection) (s : String) :
    Res × List Projection :=
  match l with
  | [] => (.ret .MISSING_RECORD_HEADER, [])
  | p :: t =>
    match env.rInfoFlagLookup s with
    | none => (.ret .INVALID_FLAG, p :: t)
    | some f => (.ret .NONE, { p with threat_flag := f } :: t)

/-- The directive dispatch registered by `init_parse_projection`. -/
def parse_projection_dir (env : Env) (l : List Projection) : PDir → Res × List Projection
  | .code c => parse_projection_code env l c
  | .name s => parse_projection_name l s
  | .ptype s => parse_projection_type l s
  | .desc s => parse_projection_desc l s
  | .blind_desc s => parse_projection_blind_desc l s
  | .lash_desc s => parse_projection_lash_desc l s
  | .numerator n => parse_projection_numerator l n
  | .denominator r => parse_projection_denominator l r
  | .divisor n => parse_projection_divisor l n
  | .damage_cap n => parse_projection_damage_cap l n
  | .msgt s => parse_projection_message_type env l s
  | .obvious n => parse_projection_obvious l n
  | .color s => parse_projection_color env l s
  | .pvp_flags o => parse_projection_pvp_flags l o
  | .threat s => parse_projection_threat l s
  | .threat_flag s => parse_projection_threat_flag env l s

/-- Embeds `finish_parse_projection`: count the accumulated newest-first list,
allocate an array of that size and copy the records writing indices N-1 down
to 0 — i.e. the array is the reversal of the list (the copied records' `next`
links are cleared; intrusive links are represented by the list structure here). -/
def finish_parse_projection (l : List Projection) : Array Projection :=
  l.reverse.toArray

/-- Runs the dispatcher over a whole projection file from a given parser state:
the first non-`PARSE_ERROR_NONE` result (or assertion failure) aborts the file. -/
def run_projection_from (env : Env) (st : List Projection) :
    List PDir → Res × List Projection
  | [] => (.ret .NONE, st)
  | d :: ds =>
    if (parse_projection_dir env st d).1 = .ret .NONE then
      run_projection_from env (parse_projection_dir env st d).2 ds
    else parse_projection_dir env st d

/-- Runs a projection file from the initial `parser_setpriv(p, NULL)` state. -/
def run_projection (env : Env) (ds : List PDir) : Res × List Projection :=
  run_projection_from env [] ds

/-! ## Spec-side projection table builder

Definitions in this block follow the words of the spec, for the refinement
claim about the finish phase: the table is built forward (the record created
by the i-th `code` directive sits at index i from the moment of its creation),
and every field directive updates the newest — last — record in place, so a
repeated single-value field directive overwrites the earlier value
(last-directive-wins). -/

/-- Spec-side `code`: append a fresh record at the next index, then apply the
element-name check at that index. -/
def spec_projection_code (env : Env) (L : List Projection) (c : String) :
    Res × List Projection :=
  let index := L.length
  let L' := L ++ [({ index := index } : Projection)]
  if index < env.elemNames.length ∧ c ≠ env.elemNames.getD index "" then
    (.ret .ELEMENT_NAME_MISMATCH, L')
  else (.ret .NONE, L')

/-- Spec-side single-value field directive: fails with missing-record-header on
an empty table, otherwise overwrites the field of the last (current) record. -/
def spec_field_update (f : Projection → Projection) (L : List Projection) :
    Res × List Projection :=
  if L = [] then (.ret .MISSING_RECORD_HEADER, [])
  else (.ret .NONE, updateLast f L)

/-- Spec-side counterpart of the msgt directive (assertion on an empty table,
lookup failure leaves the table unchanged). -/
def spec_projection_msgt (env : Env) (L : List Projection) (s : String) :
    Res × List Projection :=
  if L = [] then (.crash, [])
  else if env.messageLookup s < 0 then (.ret .INVALID_MESSAGE, L)
  else (.ret .NONE, updateLast (fun p => { p with msgt := env.messageLookup s }) L)

/-- Spec-side counterpart of the color directive. -/
def spec_projection_color (env : Env) (L : List Projection) (s : String) :
    Res × List Projection :=
  if L = [] then (.crash, [])
  else
    let attr := if s.length > 1 then env.colorTextToAttr s
                else env.colorCharToAttr (s.toList.headD (Char.ofNat 0))
    if attr < 0 then (.ret .INVALID_COLOR, L)
    else (.ret .NONE, updateLast (fun p => { p with color := attr }) L)

/-- Spec-side counterpart of the optional pvp-flags directive: partial
application of the recognized prefix, invalid-flag on the first unknown token. -/
def spec_projection_pvp_flags (L : List Projection) (o : Option String) :
    Res × List Projection :=
  if L = [] then (.ret .MISSING_RECORD_HEADER, [])
  else
    match o with
    | none => (.ret .NONE, L)
    | some s =>
      let r := tok_loop pvp_flag_found pvp_flag_app .INVALID_FLAG
        (L.getLastD ({} : Projection)).flags (strtok_split s)
      (.ret r.1, updateLast (fun p => { p with flags := r.2 }) L)

/-- Spec-side counterpart of the threat-flag directive. -/
def spec_projection_threat_flag (env : Env) (L : List Projection) (s : String) :
    Res × List Projection :=
  if L = [] then (.ret .MISSING_RECORD_HEADER, [])
  else
    match env.rInfoFlagLookup s with
    | none => (.ret .INVALID_FLAG, L)
    | some f => (.ret .NONE, updateLast (fun p => { p with threat_flag := f }) L)

/-- Spec-side directive dispatch over the forward table. -/
def spec_projection_dir (env : Env) (L : List Projection) : PDir → Res × List Projection
  | .code c => spec_projection_code env L c
  | .name s => spec_field_update (fun p => { p with name := some s }) L
  | .ptype s => spec_field_update (fun p => { p with ptype := some s }) L
  | .desc s => spec_field_update (fun p => { p with desc := some s }) L
  | .blind_desc s => spec_field_update (fun p => { p with blind_desc := some s }) L
  | .lash_desc s => spec_field_update (fun p => { p with lash_desc := some s }) L
  | .numerator n => spec_field_update (fun p => { p with numerator := n }) L
  | .denominator r => spec_field_update (fun p => { p with denominator := r }) L
  | .divisor n => spec_field_update (fun p => { p with divisor := n }) L
  | .damage_cap n => spec_field_update (fun p => { p with damage_cap := n }) L
  | .msgt s => spec_projection_msgt env L s
  | .obvious n => spec_field_update (fun p => { p with obvious := n = 1 }) L
  | .color s => spec_projection_color env L s
  | .pvp_flags o => spec_projection_pvp_flags L o
  | .threat s => spec_field_update (fun p => { p with threat := some s }) L
  | .threat_flag s => spec_projection_threat_flag env L s

/-- Spec-side run over a whole file from a given forward table. -/
def spec_run_projection_from (env : Env) (L : List Projection) :
    List PDir → Res × List Projection
  | [] => (.ret .NONE, L)
  | d :: ds =>
    if (spec_projection_dir env L d).1 = .ret .NONE then
      spec_run_projection_from env (spec_projection_dir env L d).2 ds
    else spec_projection_dir env L d

/-- Spec-side run of a whole projection file from the empty table. -/
def spec_run_projection (env : Env) (ds : List PDir) : Res × List Projection :=
  spec_run_projection_from env [] ds

/-! ## Refinement: the code-side projection run materializes the spec-side table -/

/-- Invariant of the accumulation list: the record at list position j (newest
first) carries index `length - 1 - j`, i.e. indices record first-seen order. -/
def ProjInv (l : List Projection) : Prop :=
  ∀ j (h : j < l.length), (l.get ⟨j, h⟩).index = l.length - 1 - j

/-- Arguments of the `code` directives of a projection file, in file order. -/
def codeArgs : List PDir → List String
  | [] => []
  | .code c :: ds => c :: codeArgs ds
  | .name _ :: ds => codeArgs ds
  | .ptype _ :: ds => codeArgs ds
  | .desc _ :: ds => codeArgs ds
  | .blind_desc _ :: ds => codeArgs ds
  | .lash_desc _ :: ds => codeArgs ds
  | .numerator _ :: ds => codeArgs ds
  | .denominator _ :: ds => codeArgs ds
  | .divisor _ :: ds => codeArgs ds
  | .damage_cap _ :: ds => codeArgs ds
  | .msgt _ :: ds => codeArgs ds
  | .obvious _ :: ds => codeArgs ds
  | .color _ :: ds => codeArgs ds
  | .pvp_flags _ :: ds => codeArgs ds
  | .threat _ :: ds => codeArgs ds
  | .threat_flag _ :: ds => codeArgs ds

/-! ## Object bases (init_parse_object_base and friends) -/

/-- The fields of `struct object_base` touched by obj-init.c. -/
structure ObjectBase where
  tval : Int := 0
  name : Option String := none
  attr : Int := 0
  break_perc : Int := 0
  max_stack : Int := 0
  num_svals : Int := 0
  flags : Finset Nat := ∅
  kind_flags : Finset Nat := ∅
  el_info : List ElementInfo := []
  deriving DecidableEq

/-- The private parser data of the object-base parser (`struct kb_parsedata`):
running defaults plus the accumulated record list (newest first). -/
structure KbParsedata where
  defaults : ObjectBase := {}
  kb : List ObjectBase := []
  deriving DecidableEq

/-- One object_base.txt directive with coerced arguments. -/
inductive KbDir where
  | defaultD (label : String) (value : Int)
  | name (tval : String) (nameO : Option String)
  | graphics (color : String)
  | breakD (v : Int)
  | max_stack (v : Int)
  | flags (s : String)
  deriving DecidableEq, Repr

/-- Embeds `parse_object_base_defaults`. -/
def parse_object_base_defaults (d : KbParsedata) (label : String) (value : Int) :
    Res × KbParsedata :=
  if label = "break-chance" then
    (.ret .NONE, { d with defaults := { d.defaults with break_perc := value } })
  else if label = "max-stack" then
    (.ret .NONE, { d with defaults := { d.defaults with max_stack := value } })
  else (.ret .UNDEFINED_DIRECTIVE, d)

/-- Embeds `parse_object_base_name`: the new record starts as a copy of the
running defaults and is pushed onto the list; then its tval is resolved
(`PARSE_ERROR_UNRECOGNISED_TVAL` on failure, with the record left pushed), the
optional display name is set, and `num_svals` is reset to 0. The C code pushes
first and then mutates the pushed record in place; the model applies the same
mutations before consing, yielding the identical final state. -/
def parse_object_base_name (env : Env) (d : KbParsedata) (tvalS : String)
    (nameO : Option String) : Res × KbParsedata :=
  let kb0 := d.defaults
  let tval := env.tvalFindIdx tvalS
  let kb1 := { kb0 with tval := tval }
  if tval = -1 then (.ret .UNRECOGNISED_TVAL, { d with kb := kb1 :: d.kb })
  else
    let kb2 := match nameO with
      | some n => { kb1 with name := some n }
      | none => kb1
    (.ret .NONE, { d with kb := { kb2 with num_svals := 0 } :: d.kb })

/-- Embeds `parse_object_base_graphics` (`my_assert(kb)`; no validity check on
the resolved attribute). -/
def parse_object_base_graphics (env : Env) (d : KbParsedata) (color : String) :
    Res × KbParsedata :=
  match d.kb with
  | [] => (.crash, d)
  | kb :: rest =>
    let attr := if color.length > 1 then env.colorTextToAttr color
                else env.colorCharToAttr (color.toList.headD (Char.ofNat 0))
    (.ret .NONE, { d with kb := { kb with attr := attr } :: rest })

/-- Embeds `parse_object_base_break`. -/
def parse_object_base_break (d : KbParsedata) (v : Int) : Res × KbParsedata :=
  match d.kb with
  | [] => (.crash, d)
  | kb :: rest => (.ret .NONE, { d with kb := { kb with break_perc := v } :: rest })

/-- Embeds `parse_object_base_max_stack`. -/
def parse_object_base_max_stack (d : KbParsedata) (v : Int) : Res × KbParsedata :=
  match d.kb with
  | [] => (.crash, d)
  | kb :: rest => (.ret .NONE, { d with kb := { kb with max_stack := v } :: rest })

/-- Token recognizer of the `parse_object_base_flags` loop: a token is accepted
when any of the three matchers (object flags, kind flags, element IGNORE/HATES
prefix form) recognizes it. -/
def object_base_flags_found (env : Env) (t : String) : Bool :=
  (grab_flag env.objFlagNames t).isSome || (grab_flag env.kindFlagNames t).isSome ||
    (grab_element_match env.elemNames t).isSome

/-- Effects of one token of `parse_object_base_flags`: every matcher that
recognizes the token applies its update (the C code runs all three ifs). -/
def object_base_flags_app (env : Env) (kb : ObjectBase) (t : String) : ObjectBase :=
  let kb1 := match grab_flag env.objFlagNames t with
    | some i => { kb with flags := insert i kb.flags }
    | none => kb
  let kb2 := match grab_flag env.kindFlagNames t with
    | some i => { kb1 with kind_flags := insert i kb1.kind_flags }
    | none => kb1
  { kb2 with el_info := (grab_element_flag env.elemNames kb2.el_info t).2 }

/-- Embeds `parse_object_base_flags`: strtok over " |", stop at the first
unrecognized token with `PARSE_ERROR_INVALID_FLAG`, keeping earlier effects. -/
def parse_object_base_flags (env : Env) (d : KbParsedata) (s : String) :
    Res × KbParsedata :=
  match d.kb with
  | [] => (.crash, d)
  | kb :: rest =>
    let r := tok_loop (object_base_flags_found env) (object_base_flags_app env)
      .INVALID_FLAG kb (strtok_split s)
    (.ret r.1, { d with kb := r.2 :: rest })

/-- The directive dispatch registered by `init_parse_object_base`. -/
def parse_object_base_dir (env : Env) (d : KbParsedata) : KbDir → Res × KbParsedata
  | .defaultD label v => parse_object_base_defaults d label v
  | .name tvalS nameO => parse_object_base_name env d tvalS nameO
  | .graphics c => parse_object_base_graphics env d c
  | .breakD v => parse_object_base_break d v
  | .max_stack v => parse_object_base_max_stack d v
  | .flags s => parse_object_base_flags env d s

/-- Runs an object_base.txt file from a given state, aborting at the first
failing directive. -/
def run_object_base_from (env : Env) (d : KbParsedata) :
    List KbDir → Res × KbParsedata
  | [] => (.ret .NONE, d)
  | dir :: ds =>
    if (parse_object_base_dir env d dir).1 = .ret .NONE then
      run_object_base_from env (parse_object_base_dir env d dir).2 ds
    else parse_object_base_dir env d dir

/-- Runs an object_base.txt file from the zeroed initial parse data. -/
def run_object_base (env : Env) (ds : List KbDir) : Res × KbParsedata :=
  run_object_base_from env {} ds

/-- Embeds `finish_parse_object_base`: the table is a zero-initialized array of
`TV_MAX` entries; walking the accumulated list newest-first, each record with an
in-range tval is copied to slot `tval` (so of two records sharing a tval the
first-parsed one, written last, wins). The skipped `tval >= TV_MAX` branch of
the C loop is unreachable on accepted files. -/
def finish_parse_object_base (TV_MAX : Nat) (d : KbParsedata) : Array ObjectBase :=
  d.kb.foldl
    (fun arr kb =>
      if kb.tval < (TV_MAX : Int) then arr.setD kb.tval.toNat kb else arr)
    (Array.mkArray TV_MAX {})

/-! ## Object kinds (init_parse_object and friends) -/

/-- The fields of `struct effect` touched by the modelled callbacks. Effects
accumulate newest-first; the `next` chain is the containing list. -/
structure Effect where
  y : Int := 0
  x : Int := 0
  dice : Option Dice := none
  self_msg : Option String := none
  other_msg : Option String := none
  deriving DecidableEq

/-- The fields of `struct object_kind` touched by the modelled callbacks and
finish phase (zeroed by `mem_zalloc`); `next` holds the array index the
finished record's next pointer designates. -/
structure ObjectKind where
  kidx : Nat := 0
  tval : Int := 0
  sval : Int := 0
  name : Option String := none
  text : Option String := none
  level : Int := 0
  weight : Int := 0
  d_char : Char := Char.ofNat 0
  d_attr : Int := 0
  kind_flags : Finset Nat := ∅
  flags : Finset Nat := ∅
  el_info : List ElementInfo := []
  effect : List Effect := []
  time : Rand := {}
  modifiers : List Rand := []
  slays : Option (List Bool) := none
  brands : Option (List Bool) := none
  curses : Option (List Int) := none
  next : Option Nat := none
  deriving DecidableEq

/-- Embeds `parse_object_time` (`my_assert(k)`: missing record aborts). -/
def parse_object_time (ks : List ObjectKind) (r : Rand) : Res × List ObjectKind :=
  match ks with
  | [] => (.crash, [])
  | k :: rest => (.ret .NONE, { k with time := r } :: rest)

/-- Token recognizer of the `parse_object_values` loop. -/
def object_values_found (env : Env) (t : String) : Bool :=
  (env.grabRandValue t).isSome || (env.grabIndexAndInt env.elemNames "RES_" t).isSome

/-- Effects of one token of `parse_object_values`: a modifier match stores the
random value at its index, an elements match stores the resistance level. -/
def object_values_app (env : Env) (k : ObjectKind) (t : String) : ObjectKind :=
  let k1 := match env.grabRandValue t with
    | some iv => { k with modifiers := k.modifiers.set iv.1 iv.2 }
    | none => k
  match env.grabIndexAndInt env.elemNames "RES_" t with
  | some iv =>
    { k1 with el_info := listModify k1.el_info iv.1 fun e => { e with res_level := iv.2 } }
  | none => k1

/-- Embeds `parse_object_values` (`my_assert(k)`): strtok over " |", first
unmatched token stops scanning with `PARSE_ERROR_INVALID_VALUE`, earlier
values stay applied. -/
def parse_object_values (env : Env) (ks : List ObjectKind) (s : String) :
    Res × List ObjectKind :=
  match ks with
  | [] => (.crash, [])
  | k :: rest =>
    let r := tok_loop (object_values_found env) (object_values_app env)
      .INVALID_VALUE k (strtok_split s)
    (.ret r.1, r.2 :: rest)

/-- Embeds `parse_object_expr`: missing record is an error; a missing effect or
missing dice is a silent no-op; otherwise the expression is built (base-value
lookup, operation string, binding into the newest effect's dice), failing with
`PARSE_ERROR_BAD_EXPRESSION_STRING` or `PARSE_ERROR_UNBOUND_EXPRESSION`. -/
def parse_object_expr (env : Env) (ks : List ObjectKind) (nameS baseS exprS : String) :
    Res × List ObjectKind :=
  match ks with
  | [] => (.ret .MISSING_RECORD_HEADER, [])
  | k :: rest =>
    match k.effect with
    | [] => (.ret .NONE, k :: rest)
    | eff :: effs =>
      match eff.dice with
      | none => (.ret .NONE, k :: rest)
      | some d =>
        let fn := env.spellValueBase baseS
        match env.exprOpsString exprS with
        | none => (.ret .BAD_EXPRESSION_STRING, k :: rest)
        | some ops =>
          match env.diceBindExpression d nameS { base := fn, ops := ops } with
          | none => (.ret .UNBOUND_EXPRESSION, k :: rest)
          | some d2 =>
            (.ret .NONE, { k with effect := { eff with dice := some d2 } :: effs } :: rest)

/-- Embeds `finish_parse_object`: count the accumulated list, copy newest-first
into descending indices (so index = first-seen order), stamp each record's
`kidx` with its index, union the object base's kind flags of the record's tval
into its kind flags, and chain `next` to index+1 (null for the last element). -/
def finish_parse_object (kb_info : List ObjectBase) (priv : List ObjectKind) :
    Array ObjectKind :=
  let n := priv.length
  ((priv.reverse.enum).map fun ik =>
    { ik.2 with
        kidx := ik.1,
        kind_flags := ik.2.kind_flags ∪ (kb_info.getD ik.2.tval.toNat {}).kind_flags,
        next := if ik.1 < n - 1 then some (ik.1 + 1) else none }).toArray

/-! ## Curses (init_parse_curse, the fields the claims need) -/

/-- The fields of the curse's embedded object payload (`curse->obj`, a full
`struct object` in C; only the modelled fields are carried). -/
structure CurseObj where
  effect : List Effect := []
  to_h : Int := 0
  to_d : Int := 0
  to_a : Int := 0
  flags : Finset Nat := ∅
  el_info : List ElementInfo := []
  modifiers : List Int := []
  time : Rand := {}
  deriving DecidableEq

/-- The fields of `struct curse` touched by the modelled callbacks. -/
structure Curse where
  name : Option String := none
  poss : List Bool := []
  obj : CurseObj := {}
  conflict : Option String := none
  conflict_flags : Finset Nat := ∅
  desc : Option String := none
  deriving DecidableEq

/-- Embeds `parse_curse_dice`: missing record is an error; a missing effect is
a silent no-op ("assume that this is human and not parser error"); otherwise
the dice string is parsed into the newest effect. -/
def parse_curse_dice (env : Env) (cs : List Curse) (diceS : String) :
    Res × List Curse :=
  match cs with
  | [] => (.ret .MISSING_RECORD_HEADER, [])
  | c :: rest =>
    match c.obj.effect with
    | [] => (.ret .NONE, c :: rest)
    | eff :: effs =>
      match env.diceParseString diceS with
      | some d =>
        (.ret .NONE,
          { c with obj := { c.obj with effect := { eff with dice := some d } :: effs } }
            :: rest)
      | none => (.ret .INVALID_DICE, c :: rest)

/-! ## Slays, brands, egos (the cross-reference callbacks of C3) -/

/-- The fields of `struct slay` touched by obj-init.c. -/
structure Slay where
  code : String := ""
  name : Option String := none
  race_flag : Nat := 0
  base : Option String := none
  multiplier : Nat := 0
  power : Nat := 0
  esp_chance : Nat := 0
  esp_flag : Nat := 0
  deriving DecidableEq

/-- The fields of `struct brand` touched by obj-init.c. -/
structure Brand where
  code : String := ""
  name : Option String := none
  verb : Option String := none
  multiplier : Nat := 0
  power : Nat := 0
  resist_flag : Nat := 0
  deriving DecidableEq

/-- The fields of `struct ego_item` touched by the modelled callbacks
(`poss_items` keeps the kidx chain, newest first). -/
structure EgoItem where
  name : Option String := none
  rating : Int := 0
  alloc_prob : Int := 0
  alloc_min : Int := 0
  alloc_max : Int := 0
  poss_items : List Nat := []
  slays : Option (List Bool) := none
  brands : Option (List Bool) := none
  curses : Option (List Int) := none
  deriving DecidableEq

/-- The scan `for (i = 0; i < z_info->slay_max; i++) if (streq(s, slays[i].code))
break;` — first matching index, or the table length when nothing matches. -/
def slay_code_scan : List Slay → String → Nat
  | [], _ => 0
  | sl :: sls, s => if sl.code = s then 0 else slay_code_scan sls s + 1

/-- The analogous scan over the brand table. -/
def brand_code_scan : List Brand → String → Nat
  | [], _ => 0
  | b :: bs, s => if b.code = s then 0 else brand_code_scan bs s + 1

/-- Embeds `parse_ego_slay`: unknown codes report
`PARSE_ERROR_UNRECOGNISED_SLAY` before anything is allocated or written. -/
def parse_ego_slay (slays : List Slay) (es : List EgoItem) (s : String) :
    Res × List EgoItem :=
  match es with
  | [] => (.ret .MISSING_RECORD_HEADER, [])
  | e :: rest =>
    let i := slay_code_scan slays s
    if i = slays.length then (.ret .UNRECOGNISED_SLAY, e :: rest)
    else
      let arr := e.slays.getD (List.replicate slays.length false)
      (.ret .NONE, { e with slays := some (arr.set i true) } :: rest)

/-- Embeds `parse_ego_brand`. -/
def parse_ego_brand (brands : List Brand) (es : List EgoItem) (s : String) :
    Res × List EgoItem :=
  match es with
  | [] => (.ret .MISSING_RECORD_HEADER, [])
  | e :: rest =>
    let i := brand_code_scan brands s
    if i = brands.length then (.ret .UNRECOGNISED_BRAND, e :: rest)
    else
      let arr := e.brands.getD (List.replicate brands.length false)
      (.ret .NONE, { e with brands := some (arr.set i true) } :: rest)

/-- Numeric reading of an all-digit name (the `sscanf(name, "%u", &r)` fast
path of the sval lookups). -/
def digits_value (s : String) : Option Nat :=
  let cs := s.toList
  if cs.isEmpty then none
  else if cs.all Char.isDigit then
    some (cs.foldl (fun n c => n * 10 + (c.toNat - 48)) 0)
  else none

/-- Modelled from the spec: `lookup_sval` (obj-util.c, not under `src/`)
resolves an sval name within a tval — a purely numeric name is the sval number
itself, otherwise the finished kind table is scanned for a kind of that tval
with a matching name; failure is reported as -1. Name matching abstracts the
display-format normalization applied in C. -/
def lookup_sval (k_info : List ObjectKind) (tval : Int) (s : String) : Int :=
  match digits_value s with
  | some r => (r : Int)
  | none =>
    match k_info.find? (fun k => decide (k.tval = tval ∧ k.name = some s)) with
    | some k => k.sval
    | none => -1

/-- Modelled from the spec: `lookup_sval_silent` — the message-free variant of
`lookup_sval` used by the artifact base-object directive; same resolution. -/
def lookup_sval_silent (k_info : List ObjectKind) (tval : Int) (s : String) : Int :=
  lookup_sval k_info tval s

/-- Modelled from the spec: `lookup_kind` linearly scans the finished kind
table; this variant yields the index of the first kind with the given tval and
sval, `none` standing for the null pointer returned when the kind is absent. -/
def lookup_kind_idx (k_info : List ObjectKind) (tval sval : Int) : Option Nat :=
  k_info.findIdx? fun k => decide (k.tval = tval ∧ k.sval = sval)

/-- Embeds `parse_ego_item`: unrecognised tval is an error; then the sval is
resolved and `lookup_kind(tval, sval)->kidx` is dereferenced unconditionally —
when the kind is absent the lookup yields a null pointer and the callback
crashes (`Res.crash`); otherwise a poss_items entry is pushed first and only
then validated (`PARSE_ERROR_INVALID_ITEM_NUMBER` keeps the pushed entry). -/
def parse_ego_item (env : Env) (k_info : List ObjectKind) (es : List EgoItem)
    (tvalS svalS : String) : Res × List EgoItem :=
  match es with
  | [] => (.ret .MISSING_RECORD_HEADER, [])
  | e :: rest =>
    let tval := env.tvalFindIdx tvalS
    if tval < 0 then (.ret .UNRECOGNISED_TVAL, e :: rest)
    else
      let sval := lookup_sval k_info tval svalS
      match lookup_kind_idx k_info tval sval with
      | none => (.crash, e :: rest)
      | some j =>
        let kidx := (k_info.getD j {}).kidx
        let e2 := { e with poss_items := kidx :: e.poss_items }
        if kidx ≤ 0 then (.ret .INVALID_ITEM_NUMBER, e2 :: rest)
        else (.ret .NONE, e2 :: rest)

/-! ## Artifacts (init_parse_artifact, the callbacks the claims need) -/

/-- The fields of `struct artifact` touched by the modelled callbacks. -/
structure Artifact where
  name : Option String := none
  tval : Int := 0
  sval : Int := 0
  level : Int := 0
  weight : Int := 0
  alloc_prob : Int := 0
  alloc_min : Int := 0
  alloc_max : Int := 0
  flags : Finset Nat := ∅
  el_info : List ElementInfo := []
  text : Option String := none
  alt_msg : Option String := none
  modifiers : List Int := []
  slays : Option (List Bool) := none
  brands : Option (List Bool) := none
  curses : Option (List Int) := none
  aidx : Nat := 0
  deriving DecidableEq

/-- Global state during the artifact load phase: the already-finished object
kind table (`k_info`), the object base table (`kb_info`) and the artifact
accumulation list (newest first). -/
structure AState where
  k_info : List ObjectKind := []
  kb_info : List ObjectBase := []
  arts : List Artifact := []
  deriving DecidableEq

/-- Attribute value `COLOUR_RED` (z-color.h, not under `src/`; the exact number
is immaterial here). -/
def COLOUR_RED : Int := 4

/-- Bit position of `KF_INSTA_ART` in the kind-flag table (list-kind-flags.h,
not under `src/`; the exact position is immaterial here). -/
def KF_INSTA_ART : Nat := 1

/-- Embeds `write_dummy_object_record` (obj-init.c lines 64-118): grow `k_info`
by one zeroed slot; fill the new last slot as the artifact's dummy kind — the
artifact's tval, the name `"& <name>~"`, `kidx` = its array position; find the
object base carrying that tval, bump its `num_svals` and use the bumped count
as the dummy's and the artifact's sval; give default colours, the -1
level/weight sentinels and the `KF_INSTA_ART` kind flag.
`PARSE_ERROR_INTERNAL` (no base with that tval) leaves the grown table with the
partially-written dummy, exactly as the C early return does. -/
def write_dummy_object_record (k_info : List ObjectKind) (kb_info : List ObjectBase)
    (art : Artifact) (name : String) :
    ParseError × List ObjectKind × List ObjectBase × Artifact :=
  let k1 := k_info ++ [{}]
  let kidx := k1.length - 1
  let k2 := listModify k1 kidx fun d =>
    { d with tval := art.tval, name := some ("& " ++ name ++ "~"), kidx := kidx }
  match kb_info.findIdx? (fun kb => decide (kb.tval = art.tval)) with
  | none => (.INTERNAL, k2, kb_info, art)
  | some i =>
    let kb2 := listModify kb_info i fun kb => { kb with num_svals := kb.num_svals + 1 }
    let sval := (kb_info.getD i {}).num_svals + 1
    let k3 := listModify k2 kidx fun d =>
      { d with sval := sval, d_char := '*', d_attr := COLOUR_RED,
               level := -1, weight := -1,
               kind_flags := insert KF_INSTA_ART d.kind_flags }
    (.NONE, k3, kb2, { art with sval := sval })

/-- Embeds `parse_artifact_base_object` (`my_assert(a)`): resolve the tval
(`PARSE_ERROR_UNRECOGNISED_TVAL` before anything is written), store it, then
resolve the sval silently; an absent sval triggers `write_dummy_object_record`,
otherwise the artifact's sval is simply the found one. -/
def parse_artifact_base_object (env : Env) (st : AState) (tvalS svalS : String) :
    Res × AState :=
  match st.arts with
  | [] => (.crash, st)
  | a :: rest =>
    let tval := env.tvalFindIdx tvalS
    if tval < 0 then (.ret .UNRECOGNISED_TVAL, st)
    else
      let a1 := { a with tval := tval }
      let sval := lookup_sval_silent st.k_info tval svalS
      if sval < 0 then
        let r := write_dummy_object_record st.k_info st.kb_info a1 svalS
        (.ret r.1,
          { st with k_info := r.2.1, kb_info := r.2.2.1, arts := r.2.2.2 :: rest })
      else (.ret .NONE, { st with arts := { a1 with sval := sval } :: rest })

/-- Embeds `parse_artifact_level` (`my_assert(a)`, `my_assert(k)`): the level
is stored in the artifact, and additionally copied into the base object kind
exactly when that kind still carries the -1 sentinel. -/
def parse_artifact_level (st : AState) (lvl : Int) : Res × AState :=
  match st.arts with
  | [] => (.crash, st)
  | a :: rest =>
    match lookup_kind_idx st.k_info a.tval a.sval with
    | none => (.crash, st)
    | some j =>
      let k2 := if (st.k_info.getD j {}).level = -1 then
          listModify st.k_info j fun k => { k with level := lvl }
        else st.k_info
      (.ret .NONE, { st with arts := { a with level := lvl } :: rest, k_info := k2 })

/-- Embeds `parse_artifact_weight`, the weight analogue. -/
def parse_artifact_weight (st : AState) (wgt : Int) : Res × AState :=
  match st.arts with
  | [] => (.crash, st)
  | a :: rest =>
    match lookup_kind_idx st.k_info a.tval a.sval with
    | none => (.crash, st)
    | some j =>
      let k2 := if (st.k_info.getD j {}).weight = -1 then
          listModify st.k_info j fun k => { k with weight := wgt }
        else st.k_info
      (.ret .NONE, { st with arts := { a with weight := wgt } :: rest, k_info := k2 })

/-- Embeds `parse_artifact_desc` (`my_assert(a)`; `string_append` extends the
possibly-null accumulated text). -/
def parse_artifact_desc (st : AState) (s : String) : Res × AState :=
  match st.arts with
  | [] => (.crash, st)
  | a :: rest =>
    (.ret .NONE, { st with arts := { a with text := some (a.text.getD "" ++ s) } :: rest })

/-- Modelled from the spec: `lookup_curse` (not under `src/`) linearly scans
the finished curse table by name; the call sites test `i == z_info->curse_max`
for failure, so the not-found result is the table length. -/
def lookup_curse (curses : List Curse) (s : String) : Nat :=
  match curses with
  | [] => 0
  | c :: cs => if c.name = some s then 0 else lookup_curse cs s + 1

/-- Embeds `parse_artifact_curse` (`my_assert(a)`): unknown curse names report
`PARSE_ERROR_UNRECOGNISED_CURSE` before anything is allocated or written. -/
def parse_artifact_curse (curses : List Curse) (st : AState) (s : String)
    (power : Int) : Res × AState :=
  match st.arts with
  | [] => (.crash, st)
  | a :: rest =>
    let i := lookup_curse curses s
    if i = curses.length then (.ret .UNRECOGNISED_CURSE, st)
    else
      let arr := a.curses.getD (List.replicate curses.length 0)
      (.ret .NONE, { st with arts := { a with curses := some (arr.set i power) } :: rest })

/-! ## Cleanup phase (cleanup_projection / cleanup_object, claim C7) -/

/-- Memory-ownership view of one finished table for the cleanup phase: whether
the global table pointer has been set (finish sets it; cleanup never resets
it), whether the table array allocation is live, and whether the records'
owned strings/sub-allocations are live. -/
structure TableMem where
  ptrSet : Bool
  arrayLive : Bool
  subsLive : Bool
  deriving DecidableEq, Repr

/-- Embeds `cleanup_projection`: a null table pointer is a no-op ("paranoia"
guard); otherwise every record's owned strings are freed and then the array —
which is only a valid sequence of frees while both allocations are still live;
walking an already-freed table reads freed memory and frees it again (`none`).
The global pointer is not cleared, so the guard cannot detect a repeat call. -/
def cleanup_projection (m : TableMem) : Option TableMem :=
  if !m.ptrSet then some m
  else if m.arrayLive && m.subsLive then
    some { m with arrayLive := false, subsLive := false }
  else none

/-- Embeds `cleanup_object`, which has the same guard and free structure over
`k_info` (names, texts, brands, slays, curses, effects, then the array). -/
def cleanup_object (m : TableMem) : Option TableMem :=
  if !m.ptrSet then some m
  else if m.arrayLive && m.subsLive then
    some { m with arrayLive := false, subsLive := false }
  else none

/-- Concrete flag environment for exercising the tokenizer loops: one object
flag, one kind flag, one element and one modifier matcher. -/
def env4 : Env :=
  { elemNames := ["FIRE"], objFlagNames := ["SEE_INVIS"], kindFlagNames := ["GOOD"],
    grabRandValue := fun t =>
      if t = "STR[1d2]" then some (0, { dice := 1, sides := 2 }) else none }

/-- Concrete object base with one element-info slot. -/
def kb4 : ObjectBase := { el_info := [{}] }

/-- Concrete object kind with one modifier slot. -/
def k4 : ObjectKind := { modifiers := [{}] }


theorem updateLast_append (f : α → α) (xs : List α) (x : α) :
    updateLast f (xs ++ [x]) = xs ++ [f x] := by
  induction xs with
  | nil => rfl
  | cons a as ih =>
    cases as with
    | nil => rfl
    | cons b bs => simpa [updateLast] using ih

theorem length_updateLast (f : α → α) (l : List α) :
    (updateLast f l).length = l.length := by
  induction l with
  | nil => rfl
  | cons a as ih =>
    cases as with
    | nil => rfl
    | cons b bs => simpa [updateLast] using ih

theorem tok_loop_stops (found : String → Bool) (app : σ → String → σ) (err : ParseError)
    (pre : List String) (bad : String) (rest : List String)
    (hpre : ∀ t ∈ pre, found t = true) (hbad : found bad = false) (st : σ) :
    tok_loop found app err st (pre ++ bad :: rest) = (err, pre.foldl app st) := by
  induction pre generalizing st with
  | nil => simp [tok_loop, hbad]
  | cons t ts ih =>
    have ht : found t = true := hpre t (by simp)
    simp only [List.cons_append, tok_loop, ht, if_true, List.foldl_cons]
    exact ih (fun u hu => hpre u (by simp [hu])) (app st t)

theorem tok_loop_ok (found : String → Bool) (app : σ → String → σ) (err : ParseError)
    (ts : List String) (hts : ∀ t ∈ ts, found t = true) (st : σ) :
    tok_loop found app err st ts = (ParseError.NONE, ts.foldl app st) := by
  induction ts generalizing st with
  | nil => simp [tok_loop]
  | cons t ts ih =>
    have ht : found t = true := hts t (by simp)
    simp only [tok_loop, ht, if_true, List.foldl_cons]
    exact ih (fun u hu => hts u (by simp [hu])) (app st t)

theorem projInv_nil : ProjInv [] := by
  intro j h
  simp at h

theorem projInv_head {p : Projection} {t : List Projection} (h : ProjInv (p :: t)) :
    p.index = t.length := by
  simpa using h 0 (by simp)

theorem projInv_update {p q : Projection} {t : List Projection}
    (h : ProjInv (p :: t)) (hq : q.index = p.index) : ProjInv (q :: t) := by
  intro j hj
  cases j with
  | zero => simpa [hq] using h 0 (by simp)
  | succ n => simpa using h (n + 1) (by simpa using hj)

theorem projInv_push {l : List Projection} {q : Projection}
    (h : ProjInv l) (hq : q.index = l.length) : ProjInv (q :: l) := by
  intro j hj
  cases j with
  | zero => simpa using hq
  | succ n =>
    have hn : n < l.length := by simpa using hj
    have h2 := h n hn
    simp only [List.get_eq_getElem] at h2 ⊢
    simp only [List.getElem_cons_succ, List.length_cons]
    rw [h2]
    omega

/-- Per-directive simulation: from related states (the spec table is the reversal
of the accumulation list, and list indices are positions), one directive produces
the same parser-error outcome and related states again. -/
theorem parse_projection_step_rel (env : Env) (d : PDir) (l : List Projection)
    (hinv : ProjInv l) :
    (spec_projection_dir env l.reverse d).1 = (parse_projection_dir env l d).1 ∧
    (spec_projection_dir env l.reverse d).2 = (parse_projection_dir env l d).2.reverse ∧
    ProjInv (parse_projection_dir env l d).2 := by
  cases d with
  | code c =>
    cases l with
    | nil =>
      have hpush : ProjInv [({ index := 0 } : Projection)] :=
        projInv_push projInv_nil rfl
      refine ⟨?_, ?_, ?_⟩
      · simp only [spec_projection_dir, parse_projection_dir, spec_projection_code,
          parse_projection_code, List.reverse_nil, List.length_nil, List.nil_append]
      · simp only [spec_projection_dir, parse_projection_dir, spec_projection_code,
          parse_projection_code, List.reverse_nil, List.length_nil, List.nil_append]
        split <;> rfl
      · simp only [parse_projection_dir, parse_projection_code]
        split <;> exact hpush
    | cons p t =>
      have hp : p.index = t.length := projInv_head hinv
      have hpush : ProjInv (({ index := p.index + 1 } : Projection) :: p :: t) :=
        projInv_push hinv (by simp [hp])
      refine ⟨?_, ?_, ?_⟩
      · simp only [spec_projection_dir, parse_projection_dir, spec_projection_code,
          parse_projection_code, hp, List.reverse_cons, List.length_append,
          List.length_reverse, List.length_cons, List.length_nil]
        split <;> rfl
      · simp only [spec_projection_dir, parse_projection_dir, spec_projection_code,
          parse_projection_code, hp, List.reverse_cons, List.length_append,
          List.length_reverse, List.length_cons, List.length_nil]
        split <;> simp
      · simp only [parse_projection_dir, parse_projection_code]
        split <;> exact hpush
  | name s =>
    cases l with
    | nil => exact ⟨rfl, rfl, projInv_nil⟩
    | cons p t =>
      refine ⟨?_, ?_, projInv_update hinv rfl⟩ <;>
        simp [spec_projection_dir, parse_projection_dir, spec_field_update,
          parse_projection_name, updateLast_append]
  | ptype s =>
    cases l with
    | nil => exact ⟨rfl, rfl, projInv_nil⟩
    | cons p t =>
      refine ⟨?_, ?_, projInv_update hinv rfl⟩ <;>
        simp [spec_projection_dir, parse_projection_dir, spec_field_update,
          parse_projection_type, updateLast_append]
  | desc s =>
    cases l with
    | nil => exact ⟨rfl, rfl, projInv_nil⟩
    | cons p t =>
      refine ⟨?_, ?_, projInv_update hinv rfl⟩ <;>
        simp [spec_projection_dir, parse_projection_dir, spec_field_update,
          parse_projection_desc, updateLast_append]
  | blind_desc s =>
    cases l with
    | nil => exact ⟨rfl, rfl, projInv_nil⟩
    | cons p t =>
      refine ⟨?_, ?_, projInv_update hinv rfl⟩ <;>
        simp [spec_projection_dir, parse_projection_dir, spec_field_update,
          parse_projection_blind_desc, updateLast_append]
  | lash_desc s =>
    cases l with
    | nil => exact ⟨rfl, rfl, projInv_nil⟩
    | cons p t =>
      refine ⟨?_, ?_, projInv_update hinv rfl⟩ <;>
        simp [spec_projection_dir, parse_projection_dir, spec_field_update,
          parse_projection_lash_desc, updateLast_append]
  | numerator n =>
    cases l with
    | nil => exact ⟨rfl, rfl, projInv_nil⟩
    | cons p t =>
      refine ⟨?_, ?_, projInv_update hinv rfl⟩ <;>
        simp [spec_projection_dir, parse_projection_dir, spec_field_update,
          parse_projection_numerator, updateLast_append]
  | denominator r =>
    cases l with
    | nil => exact ⟨rfl, rfl, projInv_nil⟩
    | cons p t =>
      refine ⟨?_, ?_, projInv_update hinv rfl⟩ <;>
        simp [spec_projection_dir, parse_projection_dir, spec_field_update,
          parse_projection_denominator, updateLast_append]
  | divisor n =>
    cases l with
    | nil => exact ⟨rfl, rfl, projInv_nil⟩
    | cons p t =>
      refine ⟨?_, ?_, projInv_update hinv rfl⟩ <;>
        simp [spec_projection_dir, parse_projection_dir, spec_field_update,
          parse_projection_divisor, updateLast_append]
  | damage_cap n =>
    cases l with
    | nil => exact ⟨rfl, rfl, projInv_nil⟩
    | cons p t =>
      refine ⟨?_, ?_, projInv_update hinv rfl⟩ <;>
        simp [spec_projection_dir, parse_projection_dir, spec_field_update,
          parse_projection_damage_cap, updateLast_append]
  | msgt s =>
    cases l with
    | nil => exact ⟨rfl, rfl, projInv_nil⟩
    | cons p t =>
      refine ⟨?_, ?_, ?_⟩
      · simp only [spec_projection_dir, parse_projection_dir, spec_projection_msgt,
          parse_projection_message_type, List.reverse_cons]
        rw [if_neg (by simp)]
        split <;> rfl
      · simp only [spec_projection_dir, parse_projection_dir, spec_projection_msgt,
          parse_projection_message_type, List.reverse_cons]
        rw [if_neg (by simp)]
        split <;> simp [updateLast_append]
      · simp only [parse_projection_dir, parse_projection_message_type]
        split
        · exact hinv
        · exact projInv_update hinv rfl
  | obvious n =>
    cases l with
    | nil => exact ⟨rfl, rfl, projInv_nil⟩
    | cons p t =>
      refine ⟨?_, ?_, projInv_update hinv rfl⟩ <;>
        simp [spec_projection_dir, parse_projection_dir, spec_field_update,
          parse_projection_obvious, updateLast_append]
  | color s =>
    cases l with
    | nil => exact ⟨rfl, rfl, projInv_nil⟩
    | cons p t =>
      refine ⟨?_, ?_, ?_⟩
      · simp only [spec_projection_dir, parse_projection_dir, spec_projection_color,
          parse_projection_color, List.reverse_cons]
        rw [if_neg (by simp)]
        split <;>
          first
          | rfl
          | (split <;> rfl)
      · simp only [spec_projection_dir, parse_projection_dir, spec_projection_color,
          parse_projection_color, List.reverse_cons]
        rw [if_neg (by simp)]
        split <;> (split <;> simp [updateLast_append])
      · simp only [parse_projection_dir, parse_projection_color]
        split <;>
          first
          | exact hinv
          | exact projInv_update hinv rfl
          | (split <;>
              first
              | exact hinv
              | exact projInv_update hinv rfl)
  | pvp_flags o =>
    cases l with
    | nil => cases o <;> exact ⟨rfl, rfl, projInv_nil⟩
    | cons p t =>
      cases o with
      | none =>
        refine ⟨?_, ?_, hinv⟩ <;>
          simp [spec_projection_dir, parse_projection_dir, spec_projection_pvp_flags,
            parse_projection_pvp_flags]
      | some s =>
        refine ⟨?_, ?_, projInv_update hinv rfl⟩ <;>
          simp [spec_projection_dir, parse_projection_dir, spec_projection_pvp_flags,
            parse_projection_pvp_flags, updateLast_append, List.getLastD_concat]
  | threat s =>
    cases l with
    | nil => exact ⟨rfl, rfl, projInv_nil⟩
    | cons p t =>
      refine ⟨?_, ?_, projInv_update hinv rfl⟩ <;>
        simp [spec_projection_dir, parse_projection_dir, spec_field_update,
          parse_projection_threat, updateLast_append]
  | threat_flag s =>
    cases l with
    | nil => exact ⟨rfl, rfl, projInv_nil⟩
    | cons p t =>
      cases hf : env.rInfoFlagLookup s with
      | none =>
        refine ⟨?_, ?_, ?_⟩
        · simp [spec_projection_dir, parse_projection_dir, spec_projection_threat_flag,
            parse_projection_threat_flag, hf]
        · simp [spec_projection_dir, parse_projection_dir, spec_projection_threat_flag,
            parse_projection_threat_flag, hf]
        · simp only [parse_projection_dir, parse_projection_threat_flag, hf]
          exact hinv
      | some f =>
        refine ⟨?_, ?_, ?_⟩
        · simp [spec_projection_dir, parse_projection_dir, spec_projection_threat_flag,
            parse_projection_threat_flag, hf]
        · simp [spec_projection_dir, parse_projection_dir, spec_projection_threat_flag,
            parse_projection_threat_flag, hf, updateLast_append]
        · simp only [parse_projection_dir, parse_projection_threat_flag, hf]
          exact projInv_update hinv rfl

/-- Whole-file simulation, by induction along the directives. -/
theorem run_projection_rel (env : Env) (ds : List PDir) (l : List Projection)
    (hinv : ProjInv l) :
    (spec_run_projection_from env l.reverse ds).1 = (run_projection_from env l ds).1 ∧
    (spec_run_projection_from env l.reverse ds).2 =
      (run_projection_from env l ds).2.reverse ∧
    ProjInv (run_projection_from env l ds).2 := by
  induction ds generalizing l with
  | nil => exact ⟨rfl, rfl, hinv⟩
  | cons d ds ih =>
    obtain ⟨h1, h2, h3⟩ := parse_projection_step_rel env d l hinv
    by_cases hr : (parse_projection_dir env l d).1 = .ret .NONE
    · have hs : (spec_projection_dir env l.reverse d).1 = .ret .NONE := h1.trans hr
      obtain ⟨g1, g2, g3⟩ := ih (parse_projection_dir env l d).2 h3
      refine ⟨?_, ?_, ?_⟩ <;>
        simp only [run_projection_from, spec_run_projection_from, hr, hs, if_true, h2]
      · exact g1
      · exact g2
      · exact g3
    · have hs : ¬(spec_projection_dir env l.reverse d).1 = .ret .NONE := by
        rw [h1]; exact hr
      refine ⟨?_, ?_, ?_⟩ <;>
        simp only [run_projection_from, spec_run_projection_from, if_neg hr, if_neg hs]
      · exact h1
      · exact h2
      · exact h3

theorem spec_field_update_length (f : Projection → Projection) (L : List Projection) :
    (spec_field_update f L).2.length = L.length := by
  unfold spec_field_update
  split_ifs with h
  · simp [h]
  · simp [length_updateLast]

/-- Every spec-side step grows the table by one exactly on a `code` directive. -/
theorem spec_projection_step_length (env : Env) (d : PDir) (L : List Projection) :
    (spec_projection_dir env L d).2.length = L.length + (if d.isCode then 1 else 0) := by
  cases d with
  | code c =>
    simp only [spec_projection_dir, spec_projection_code, PDir.isCode]
    split <;> simp
  | msgt s =>
    simp only [spec_projection_dir, spec_projection_msgt, PDir.isCode]
    split_ifs <;> simp_all [length_updateLast]
  | color s =>
    simp only [spec_projection_dir, spec_projection_color, PDir.isCode]
    split_ifs <;> simp_all [length_updateLast]
  | pvp_flags o =>
    simp only [spec_projection_dir, spec_projection_pvp_flags, PDir.isCode]
    by_cases h : L = []
    · subst h; simp
    · rw [if_neg h]; cases o <;> simp [length_updateLast]
  | threat_flag s =>
    simp only [spec_projection_dir, spec_projection_threat_flag, PDir.isCode]
    by_cases h : L = []
    · subst h; simp
    · rw [if_neg h]; cases env.rInfoFlagLookup s <;> simp [length_updateLast]
  | name s =>
    simpa [spec_projection_dir, PDir.isCode] using
      spec_field_update_length (fun p => { p with name := some s }) L
  | ptype s =>
    simpa [spec_projection_dir, PDir.isCode] using
      spec_field_update_length (fun p => { p with ptype := some s }) L
  | desc s =>
    simpa [spec_projection_dir, PDir.isCode] using
      spec_field_update_length (fun p => { p with desc := some s }) L
  | blind_desc s =>
    simpa [spec_projection_dir, PDir.isCode] using
      spec_field_update_length (fun p => { p with blind_desc := some s }) L
  | lash_desc s =>
    simpa [spec_projection_dir, PDir.isCode] using
      spec_field_update_length (fun p => { p with lash_desc := some s }) L
  | numerator n =>
    simpa [spec_projection_dir, PDir.isCode] using
      spec_field_update_length (fun p => { p with numerator := n }) L
  | denominator r =>
    simpa [spec_projection_dir, PDir.isCode] using
      spec_field_update_length (fun p => { p with denominator := r }) L
  | divisor n =>
    simpa [spec_projection_dir, PDir.isCode] using
      spec_field_update_length (fun p => { p with divisor := n }) L
  | damage_cap n =>
    simpa [spec_projection_dir, PDir.isCode] using
      spec_field_update_length (fun p => { p with damage_cap := n }) L
  | obvious n =>
    simpa [spec_projection_dir, PDir.isCode] using
      spec_field_update_length (fun p => { p with obvious := n = 1 }) L
  | threat s =>
    simpa [spec_projection_dir, PDir.isCode] using
      spec_field_update_length (fun p => { p with threat := some s }) L

/-- Accepted spec-side runs grow the table by exactly the number of `code`
directives. -/
theorem spec_run_projection_length (env : Env) (ds : List PDir) (L : List Projection)
    (hacc : (spec_run_projection_from env L ds).1 = .ret .NONE) :
    (spec_run_projection_from env L ds).2.length =
      L.length + ds.countP (fun d => d.isCode) := by
  induction ds generalizing L with
  | nil => simp [spec_run_projection_from]
  | cons d ds ih =>
    by_cases h : (spec_projection_dir env L d).1 = .ret .NONE
    · rw [spec_run_projection_from, if_pos h] at hacc ⊢
      rw [ih _ hacc, spec_projection_step_length]
      rw [List.countP_cons]
      by_cases hc : d.isCode <;> simp [hc] <;> omega
    · rw [spec_run_projection_from, if_neg h] at hacc
      exact absurd hacc h

theorem codeArgs_cons_not_code (d : PDir) (ds : List PDir) (h : d.isCode = false) :
    codeArgs (d :: ds) = codeArgs ds := by
  cases d <;> simp [codeArgs, PDir.isCode] at h ⊢

/-- On an accepted spec-side run, the i-th `code` directive (while the table is
still shorter than the element list) is forced to carry the i-th element name. -/
theorem spec_projection_codes_aligned (env : Env) (ds : List PDir) (L : List Projection)
    (hacc : (spec_run_projection_from env L ds).1 = .ret .NONE) :
    ∀ i, i < (codeArgs ds).length → L.length + i < env.elemNames.length →
      (codeArgs ds).getD i "" = env.elemNames.getD (L.length + i) "" := by
  induction ds generalizing L with
  | nil =>
    intro i hi _
    simp [codeArgs] at hi
  | cons d ds ih =>
    by_cases h : (spec_projection_dir env L d).1 = .ret .NONE
    · rw [spec_run_projection_from, if_pos h] at hacc
      by_cases hc : d.isCode = true
      · obtain ⟨c, rfl⟩ : ∃ c, d = .code c := by
          cases d <;> simp [PDir.isCode] at hc ⊢
        have hcond : ¬(L.length < env.elemNames.length ∧
            c ≠ env.elemNames.getD L.length "") := by
          intro hcc
          have hmm : (spec_projection_dir env L (.code c)).1 =
              .ret .ELEMENT_NAME_MISMATCH := by
            simp only [spec_projection_dir, spec_projection_code]
            rw [if_pos hcc]
          rw [hmm] at h
          simp at h
        have hlen : (spec_projection_dir env L (.code c)).2.length = L.length + 1 := by
          simpa [PDir.isCode] using spec_projection_step_length env (.code c) L
        intro i hi hb
        cases i with
        | zero =>
          simp only [codeArgs, List.getD_cons_zero]
          by_contra hne
          exact hcond ⟨by simpa using hb, by simpa using hne⟩
        | succ n =>
          have h2 := ih _ hacc n (by simpa [codeArgs] using hi) (by rw [hlen]; omega)
          rw [hlen] at h2
          have harith : L.length + 1 + n = L.length + (n + 1) := by omega
          rw [harith] at h2
          simpa [codeArgs] using h2
      · have hd : d.isCode = false := by simpa using hc
        have hco := codeArgs_cons_not_code d ds hd
        have hlen : (spec_projection_dir env L d).2.length = L.length := by
          simpa [hd] using spec_projection_step_length env d L
        intro i hi hb
        rw [hco] at hi ⊢
        have h2 := ih _ hacc i hi (by rw [hlen]; exact hb)
        rw [hlen] at h2
        exact h2
    · rw [spec_run_projection_from, if_neg h] at hacc
      exact absurd hacc h

/-- The finished array of an index-invariant list stores at position i a record
whose `index` field is i. -/
theorem projInv_finish_index (l : List Projection) (hinv : ProjInv l)
    (i : Nat) (hi : i < l.length) :
    (l.reverse.getD i ({} : Projection)).index = i := by
  have hr : i < l.reverse.length := by simpa using hi
  rw [List.getD_eq_getElem _ _ hr, List.getElem_reverse]
  have h2 := hinv (l.length - 1 - i) (by omega)
  simp only [List.get_eq_getElem] at h2
  rw [h2]
  omega

/-- C1 (amended: record types whose finish walks the accumulated list into a
first-occurrence-ordered array — here the cited projection parser; the object
base finish phase is excluded, see the counterexample): an input file accepted
without error yields, after the finish phase, exactly the spec-side table —
built forward, one slot appended per record-creating `code` directive (so the
i-th created record sits at array index i), every later single-value field
directive overwriting the current record's field in place (last-directive-wins)
— and the table length equals the number of `code` directives. -/
theorem c1_projection_finish_round_trip (env : Env) (ds : List PDir)
    (l : List Projection) (hacc : run_projection env ds = (.ret .NONE, l)) :
    (spec_run_projection env ds).1 = .ret .NONE ∧
    (finish_parse_projection l).toList = (spec_run_projection env ds).2 ∧
    (finish_parse_projection l).size = ds.countP (fun d => d.isCode) := by
  obtain ⟨h1, h2, _⟩ := run_projection_rel env ds [] projInv_nil
  have h1' : (spec_run_projection env ds).1 = (run_projection env ds).1 := by
    simpa [spec_run_projection, run_projection] using h1
  have h2' : (spec_run_projection env ds).2 = (run_projection env ds).2.reverse := by
    simpa [spec_run_projection, run_projection] using h2
  have hres : (spec_run_projection env ds).1 = .ret .NONE := by
    rw [h1', hacc]
  refine ⟨hres, ?_, ?_⟩
  · rw [h2', hacc]
    simp [finish_parse_projection]
  · have hlen : (spec_run_projection env ds).2.length =
        ds.countP (fun d => d.isCode) := by
      simpa [spec_run_projection] using
        spec_run_projection_length env ds []
          (by simpa [spec_run_projection] using hres)
    rw [h2', hacc] at hlen
    simpa [finish_parse_projection] using hlen

/-- Witness for C1: a two-record projection file whose repeated numerator
directive is resolved last-directive-wins and whose finish table lists the
records in first-seen order. -/
theorem c1_projection_finish_round_trip_witness :
    run_projection { elemNames := ["ACID", "ELEC"] }
        [.code "ACID", .name "acid", .numerator 2, .numerator 7,
         .code "ELEC", .desc "zap"] =
      (.ret .NONE,
        [{ index := 1, desc := some "zap" },
         { index := 0, name := some "acid", numerator := 7 }]) ∧
    ((spec_run_projection { elemNames := ["ACID", "ELEC"] }
        [.code "ACID", .name "acid", .numerator 2, .numerator 7,
         .code "ELEC", .desc "zap"]).1 = .ret .NONE ∧
      (finish_parse_projection
        [{ index := 1, desc := some "zap" },
         { index := 0, name := some "acid", numerator := 7 }]).toList =
        (spec_run_projection { elemNames := ["ACID", "ELEC"] }
          [.code "ACID", .name "acid", .numerator 2, .numerator 7,
           .code "ELEC", .desc "zap"]).2 ∧
      (finish_parse_projection
        [{ index := 1, desc := some "zap" },
         { index := 0, name := some "acid", numerator := 7 }]).size =
        ([.code "ACID", .name "acid", .numerator 2, .numerator 7,
          .code "ELEC", .desc "zap"] : List PDir).countP (fun d => d.isCode)) :=
  ⟨by decide, c1_projection_finish_round_trip _ _ _ (by decide)⟩

/-- C9: in a projection file accepted without error, the i-th `code` directive
(for i below the element count) carries exactly the i-th element name; the
record copied to index i of the finished table carries index i (so the first
ELEM_MAX rows line up with the element enumeration); and at any reachable
accepted state a `code` directive violating the alignment returns
`PARSE_ERROR_ELEMENT_NAME_MISMATCH`. -/
theorem c9_projection_element_alignment (env : Env) (ds : List PDir)
    (l : List Projection) (hacc : run_projection env ds = (.ret .NONE, l)) :
    (∀ i, i < (codeArgs ds).length → i < env.elemNames.length →
        (codeArgs ds).getD i "" = env.elemNames.getD i "") ∧
    (∀ i, i < (finish_parse_projection l).size →
        ((finish_parse_projection l).toList.getD i ({} : Projection)).index = i) ∧
    (∀ c, l.length < env.elemNames.length → c ≠ env.elemNames.getD l.length "" →
        (parse_projection_code env l c).1 = .ret .ELEMENT_NAME_MISMATCH) := by
  obtain ⟨h1, _, h3⟩ := run_projection_rel env ds [] projInv_nil
  have hrun1 : (run_projection_from env [] ds).1 = .ret .NONE := by
    rw [show run_projection_from env [] ds = run_projection env ds from rfl, hacc]
  have hrun2 : (run_projection_from env [] ds).2 = l := by
    rw [show run_projection_from env [] ds = run_projection env ds from rfl, hacc]
  have hinv : ProjInv l := hrun2 ▸ h3
  refine ⟨?_, ?_, ?_⟩
  · intro i hi hb
    have hspec : (spec_run_projection_from env [] ds).1 = .ret .NONE := by
      simpa [hrun1] using h1
    simpa using spec_projection_codes_aligned env ds [] hspec i hi (by simpa using hb)
  · intro i hi
    have hil : i < l.length := by
      simpa [finish_parse_projection] using hi
    simpa [finish_parse_projection] using projInv_finish_index l hinv i hil
  · intro c hlen hne
    cases hl : l with
    | nil =>
      simp only [parse_projection_code]
      rw [if_pos]
      subst hl
      exact ⟨by simpa using hlen, by simpa using hne⟩
    | cons p t =>
      have hp : p.index = t.length := projInv_head (hl ▸ hinv)
      simp only [parse_projection_code, hp]
      rw [if_pos]
      constructor
      · have : t.length + 1 = l.length := by rw [hl]; simp
        rw [this]; exact hlen
      · have : t.length + 1 = l.length := by rw [hl]; simp
        rw [this]; exact hne

/-- Witness for C9: a three-record accepted projection file over a two-element
list — the two element rows align and the third row escapes the check. -/
theorem c9_projection_element_alignment_witness :
    run_projection { elemNames := ["ACID", "ELEC"] }
        [.code "ACID", .code "ELEC", .code "FIRE"] =
      (.ret .NONE, [{ index := 2 }, { index := 1 }, { index := 0 }]) ∧
    ((∀ i, i < (codeArgs [.code "ACID", .code "ELEC", .code "FIRE"]).length →
        i < (["ACID", "ELEC"] : List String).length →
        (codeArgs [.code "ACID", .code "ELEC", .code "FIRE"]).getD i "" =
          (["ACID", "ELEC"] : List String).getD i "") ∧
      (∀ i, i < (finish_parse_projection
          [{ index := 2 }, { index := 1 }, { index := 0 }]).size →
        ((finish_parse_projection
          [{ index := 2 }, { index := 1 }, { index := 0 }]).toList.getD i
            ({} : Projection)).index = i) ∧
      (∀ c, ([{ index := 2 }, { index := 1 }, { index := 0 }] :
            List Projection).length < (["ACID", "ELEC"] : List String).length →
        c ≠ (["ACID", "ELEC"] : List String).getD 3 "" →
        (parse_projection_code { elemNames := ["ACID", "ELEC"] }
          [{ index := 2 }, { index := 1 }, { index := 0 }] c).1 =
            .ret .ELEMENT_NAME_MISMATCH)) :=
  ⟨by decide,
    c9_projection_element_alignment { elemNames := ["ACID", "ELEC"] }
      [.code "ACID", .code "ELEC", .code "FIRE"]
      [{ index := 2 }, { index := 1 }, { index := 0 }] (by decide)⟩

/-- Counterexample to C1 as stated: the object-base record type also has a
finish phase (`finish_parse_object_base`), but for the accepted one-record file
`name:food` (with "food" resolving to tval 2 out of TV_MAX = 4 tvals) the
finished table has length 4, not 1, the sole parsed record is stored at array
index 2 — its tval — rather than at first-occurrence index 0, and slot 0 holds
a zeroed record instead. -/
theorem c1_object_base_finish_cx :
    (run_object_base { tvalFindIdx := fun s => if s = "food" then 2 else -1 }
      [.name "food" none]).1 = .ret .NONE ∧
    (finish_parse_object_base 4
      (run_object_base { tvalFindIdx := fun s => if s = "food" then 2 else -1 }
        [.name "food" none]).2).size = 4 ∧
    ¬(finish_parse_object_base 4
      (run_object_base { tvalFindIdx := fun s => if s = "food" then 2 else -1 }
        [.name "food" none]).2).size = 1 ∧
    ((finish_parse_object_base 4
      (run_object_base { tvalFindIdx := fun s => if s = "food" then 2 else -1 }
        [.name "food" none]).2).toList.getD 0 {}).tval = 0 ∧
    ((finish_parse_object_base 4
      (run_object_base { tvalFindIdx := fun s => if s = "food" then 2 else -1 }
        [.name "food" none]).2).toList.getD 2 {}).tval = 2 := by
  decide

/-! ## Helper lemmas for the remaining claims -/

theorem length_listModify (l : List α) (i : Nat) (f : α → α) :
    (listModify l i f).length = l.length := by
  induction l generalizing i with
  | nil => rfl
  | cons x xs ih =>
    cases i with
    | zero => rfl
    | succ n => simpa [listModify] using ih n

theorem listModify_getD_ne (l : List α) (i j : Nat) (f : α → α) (d : α)
    (h : j ≠ i) : (listModify l i f).getD j d = l.getD j d := by
  induction l generalizing i j with
  | nil => rfl
  | cons x xs ih =>
    cases i with
    | zero =>
      cases j with
      | zero => exact absurd rfl h
      | succ m => simp [listModify]
    | succ n =>
      cases j with
      | zero => simp [listModify]
      | succ m => simpa [listModify] using ih n m (by omega)

theorem listModify_getD_eq (l : List α) (i : Nat) (f : α → α) (d : α)
    (h : i < l.length) : (listModify l i f).getD i d = f (l.getD i d) := by
  induction l generalizing i with
  | nil => simp at h
  | cons x xs ih =>
    cases i with
    | zero => simp [listModify]
    | succ n => simpa [listModify] using ih n (by simpa using h)

theorem getD_append_last (l : List α) (x d : α) :
    (l ++ [x]).getD l.length d = x := by
  simp [List.getD_eq_getElem]

theorem getD_append_left (l : List α) (x d : α) (j : Nat) (h : j < l.length) :
    (l ++ [x]).getD j d = l.getD j d := by
  rw [List.getD_eq_getElem _ _ (by simp; omega), List.getD_eq_getElem _ _ h]
  exact List.getElem_append_left h

theorem slay_code_scan_eq_length (slays : List Slay) (s : String)
    (h : ∀ sl ∈ slays, sl.code ≠ s) :
    slay_code_scan slays s = slays.length := by
  induction slays with
  | nil => rfl
  | cons sl sls ih =>
    simp [slay_code_scan, h sl (by simp), ih fun x hx => h x (by simp [hx])]

theorem brand_code_scan_eq_length (brands : List Brand) (s : String)
    (h : ∀ b ∈ brands, b.code ≠ s) :
    brand_code_scan brands s = brands.length := by
  induction brands with
  | nil => rfl
  | cons b bs ih =>
    simp [brand_code_scan, h b (by simp), ih fun x hx => h x (by simp [hx])]

theorem lookup_curse_eq_length (curses : List Curse) (s : String)
    (h : ∀ c ∈ curses, c.name ≠ some s) :
    lookup_curse curses s = curses.length := by
  induction curses with
  | nil => rfl
  | cons c cs ih =>
    simp [lookup_curse, h c (by simp), ih fun x hx => h x (by simp [hx])]

/-! ## Claims C2-C8 and C10 -/

/-- C4: a flags or values string whose tokens are all recognized up to one
unmatched token makes the tokenizer stop at that token and report
invalid-flag (respectively invalid-value), with everything applied by the
preceding tokens left in place — no rollback — shown for the two cited
callbacks `parse_object_base_flags` and `parse_object_values`. -/
theorem c4_invalid_token_stops_scan (env : Env) (dflt kb : ObjectBase)
    (dkb : List ObjectBase) (k : ObjectKind) (ks : List ObjectKind)
    (s v : String) (pre1 : List String) (bad1 : String) (rest1 : List String)
    (pre2 : List String) (bad2 : String) (rest2 : List String)
    (hs : strtok_split s = pre1 ++ bad1 :: rest1)
    (hpre1 : ∀ t ∈ pre1, object_base_flags_found env t = true)
    (hbad1 : object_base_flags_found env bad1 = false)
    (hv : strtok_split v = pre2 ++ bad2 :: rest2)
    (hpre2 : ∀ t ∈ pre2, object_values_found env t = true)
    (hbad2 : object_values_found env bad2 = false) :
    parse_object_base_flags env { defaults := dflt, kb := kb :: dkb } s =
      (.ret .INVALID_FLAG,
        { defaults := dflt, kb := pre1.foldl (object_base_flags_app env) kb :: dkb }) ∧
    parse_object_values env (k :: ks) v =
      (.ret .INVALID_VALUE, pre2.foldl (object_values_app env) k :: ks) := by
  constructor
  · simp only [parse_object_base_flags, hs]
    rw [tok_loop_stops _ _ _ _ _ _ hpre1 hbad1]
  · simp only [parse_object_values, hv]
    rw [tok_loop_stops _ _ _ _ _ _ hpre2 hbad2]

/-- Witness for C4: in "SEE_INVIS IGNORE_FIRE BADTOK GOOD" scanning stops at
BADTOK with the two earlier tokens applied (GOOD never read), and in
"STR[1d2] NOPE" the modifier is stored before NOPE fails. -/
theorem c4_invalid_token_stops_scan_witness :
    (strtok_split "SEE_INVIS IGNORE_FIRE BADTOK GOOD" =
      ["SEE_INVIS", "IGNORE_FIRE"] ++ "BADTOK" :: ["GOOD"] ∧
     (∀ t ∈ ["SEE_INVIS", "IGNORE_FIRE"], object_base_flags_found env4 t = true) ∧
     object_base_flags_found env4 "BADTOK" = false ∧
     strtok_split "STR[1d2] NOPE" = ["STR[1d2]"] ++ "NOPE" :: [] ∧
     (∀ t ∈ ["STR[1d2]"], object_values_found env4 t = true) ∧
     object_values_found env4 "NOPE" = false) ∧
    (parse_object_base_flags env4 { defaults := {}, kb := kb4 :: [] }
        "SEE_INVIS IGNORE_FIRE BADTOK GOOD" =
      (.ret .INVALID_FLAG,
        { defaults := {},
          kb := (["SEE_INVIS", "IGNORE_FIRE"].foldl
            (object_base_flags_app env4) kb4) :: [] }) ∧
     parse_object_values env4 (k4 :: []) "STR[1d2] NOPE" =
      (.ret .INVALID_VALUE,
        (["STR[1d2]"].foldl (object_values_app env4) k4) :: [])) :=
  ⟨⟨by decide, by decide, by decide, by decide, by decide, by decide⟩,
    c4_invalid_token_stops_scan env4 {} kb4 [] k4 []
      "SEE_INVIS IGNORE_FIRE BADTOK GOOD" "STR[1d2] NOPE"
      ["SEE_INVIS", "IGNORE_FIRE"] "BADTOK" ["GOOD"]
      ["STR[1d2]"] "NOPE" []
      (by decide) (by decide) (by decide) (by decide) (by decide) (by decide)⟩

/-- C5: a `dice` directive on an existing record with no effect created yet,
and an `expr` directive with no effect or no dice parsed yet, return
`PARSE_ERROR_NONE` and leave the record completely unchanged — shown for the
cited `parse_curse_dice` and `parse_object_expr`. -/
theorem c5_missing_prerequisite_silent_skip (env : Env) (c : Curse)
    (crest : List Curse) (k k2 : ObjectKind) (krest krest2 : List ObjectKind)
    (ds n b ex : String) (eff : Effect) (effs : List Effect)
    (hc : c.obj.effect = [])
    (hk : k.effect = [])
    (hk2 : k2.effect = eff :: effs)
    (hd : eff.dice = none) :
    parse_curse_dice env (c :: crest) ds = (.ret .NONE, c :: crest) ∧
    parse_object_expr env (k :: krest) n b ex = (.ret .NONE, k :: krest) ∧
    parse_object_expr env (k2 :: krest2) n b ex = (.ret .NONE, k2 :: krest2) := by
  refine ⟨?_, ?_, ?_⟩
  · simp [parse_curse_dice, hc]
  · simp [parse_object_expr, hk]
  · simp [parse_object_expr, hk2, hd]

/-- Witness for C5 at concrete records without effect (and with a dice-less
effect). -/
theorem c5_missing_prerequisite_silent_skip_witness :
    (({} : Curse).obj.effect = [] ∧ ({} : ObjectKind).effect = [] ∧
      ({ effect := [{}] } : ObjectKind).effect = ({} : Effect) :: [] ∧
      ({} : Effect).dice = none) ∧
    (parse_curse_dice {} [{}] "1d4" = (.ret .NONE, [{}]) ∧
     parse_object_expr {} [{}] "L" "PLAYER_LEVEL" "+ 1" = (.ret .NONE, [{}]) ∧
     parse_object_expr {} [({ effect := [{}] } : ObjectKind)] "L" "PLAYER_LEVEL" "+ 1" =
       (.ret .NONE, [({ effect := [{}] } : ObjectKind)])) :=
  ⟨⟨rfl, rfl, rfl, rfl⟩,
    c5_missing_prerequisite_silent_skip {} {} [] {} { effect := [{}] } [] []
      "1d4" "L" "PLAYER_LEVEL" "+ 1" {} [] rfl rfl rfl rfl⟩

/-- C6 (amended): a field directive arriving before any record exists is
handled in one of two ways — callbacks with the defensive null check return
`PARSE_ERROR_MISSING_RECORD_HEADER` and perform no mutation (here the cited
`parse_projection_name`), while callbacks that merely `my_assert` the record
pointer (the cited `parse_object_time` and `parse_artifact_desc`) abort
instead of returning the error. -/
theorem c6_missing_header_guard_or_assert (s1 s2 : String) (r : Rand)
    (k_info : List ObjectKind) (kb_info : List ObjectBase) :
    parse_projection_name [] s1 = (.ret .MISSING_RECORD_HEADER, []) ∧
    parse_object_time [] r = (.crash, []) ∧
    parse_artifact_desc { k_info := k_info, kb_info := kb_info, arts := [] } s2 =
      (.crash, { k_info := k_info, kb_info := kb_info, arts := [] }) :=
  ⟨rfl, rfl, rfl⟩

/-- Counterexample to C6 as stated: `parse_object_time` on the record-less
initial state does not return the missing-record-header error — `my_assert(k)`
aborts the process instead. -/
theorem c6_object_time_asserts_cx :
    parse_object_time [] ({} : Rand) = (.crash, []) ∧
    ¬(parse_object_time [] ({} : Rand)).1 = .ret .MISSING_RECORD_HEADER := by
  decide

/-- C7 (amended): cleanup of a never-initialized table (null global pointer)
is a safe no-op, and cleanup of a live finished table frees the owned
sub-allocations and the array exactly once; but because the global pointer is
not reset, cleanup is not idempotent — a second invocation in a row walks and
frees already-freed memory. -/
theorem c7_cleanup_guard_and_single_free (m : TableMem) (hp : m.ptrSet = false) :
    cleanup_projection m = some m ∧ cleanup_object m = some m ∧
    cleanup_projection { ptrSet := true, arrayLive := true, subsLive := true } =
      some { ptrSet := true, arrayLive := false, subsLive := false } ∧
    (cleanup_projection { ptrSet := true, arrayLive := true, subsLive := true }).bind
      cleanup_projection = none ∧
    cleanup_object { ptrSet := true, arrayLive := true, subsLive := true } =
      some { ptrSet := true, arrayLive := false, subsLive := false } ∧
    (cleanup_object { ptrSet := true, arrayLive := true, subsLive := true }).bind
      cleanup_object = none := by
  refine ⟨?_, ?_, by decide, by decide, by decide, by decide⟩
  · simp [cleanup_projection, hp]
  · simp [cleanup_object, hp]

/-- Witness for C7 at the untouched table state. -/
theorem c7_cleanup_guard_and_single_free_witness :
    ({ ptrSet := false, arrayLive := false, subsLive := false } : TableMem).ptrSet =
      false ∧
    (cleanup_projection { ptrSet := false, arrayLive := false, subsLive := false } =
      some { ptrSet := false, arrayLive := false, subsLive := false } ∧
     cleanup_object { ptrSet := false, arrayLive := false, subsLive := false } =
      some { ptrSet := false, arrayLive := false, subsLive := false } ∧
     cleanup_projection { ptrSet := true, arrayLive := true, subsLive := true } =
      some { ptrSet := true, arrayLive := false, subsLive := false } ∧
     (cleanup_projection { ptrSet := true, arrayLive := true, subsLive := true }).bind
      cleanup_projection = none ∧
     cleanup_object { ptrSet := true, arrayLive := true, subsLive := true } =
      some { ptrSet := true, arrayLive := false, subsLive := false } ∧
     (cleanup_object { ptrSet := true, arrayLive := true, subsLive := true }).bind
      cleanup_object = none) :=
  ⟨rfl, c7_cleanup_guard_and_single_free
    { ptrSet := false, arrayLive := false, subsLive := false } rfl⟩

/-- Counterexample to C7 as stated: after one (successful) cleanup of a live
finished table the global pointer is still set, so the second invocation in a
row does fail — it frees the same allocations twice (`none`). -/
theorem c7_cleanup_double_free_cx :
    cleanup_projection { ptrSet := true, arrayLive := true, subsLive := true } =
      some { ptrSet := true, arrayLive := false, subsLive := false } ∧
    cleanup_projection { ptrSet := true, arrayLive := false, subsLive := false } =
      none ∧
    cleanup_object { ptrSet := true, arrayLive := false, subsLive := false } =
      none := by
  decide

/-- C8: an artifact `level` (or `weight`) directive always stores its value in
the artifact record, and copies it into the base object kind exactly when that
kind carries the -1 sentinel written by `write_dummy_object_record`; a kind
without the sentinel is left untouched. -/
theorem c8_artifact_level_weight_sentinel (k_info : List ObjectKind)
    (kb_info : List ObjectBase) (a : Artifact) (rest : List Artifact)
    (j : Nat) (lvl wgt : Int)
    (hj : lookup_kind_idx k_info a.tval a.sval = some j) :
    (((k_info.getD j {}).level = -1 →
      parse_artifact_level { k_info := k_info, kb_info := kb_info, arts := a :: rest }
          lvl =
        (.ret .NONE,
          { k_info := listModify k_info j fun k => { k with level := lvl },
            kb_info := kb_info, arts := { a with level := lvl } :: rest })) ∧
     (¬(k_info.getD j {}).level = -1 →
      parse_artifact_level { k_info := k_info, kb_info := kb_info, arts := a :: rest }
          lvl =
        (.ret .NONE,
          { k_info := k_info, kb_info := kb_info,
            arts := { a with level := lvl } :: rest }))) ∧
    (((k_info.getD j {}).weight = -1 →
      parse_artifact_weight { k_info := k_info, kb_info := kb_info, arts := a :: rest }
          wgt =
        (.ret .NONE,
          { k_info := listModify k_info j fun k => { k with weight := wgt },
            kb_info := kb_info, arts := { a with weight := wgt } :: rest })) ∧
     (¬(k_info.getD j {}).weight = -1 →
      parse_artifact_weight { k_info := k_info, kb_info := kb_info, arts := a :: rest }
          wgt =
        (.ret .NONE,
          { k_info := k_info, kb_info := kb_info,
            arts := { a with weight := wgt } :: rest }))) := by
  refine ⟨⟨?_, ?_⟩, ⟨?_, ?_⟩⟩ <;> intro h <;>
    simp only [List.getD_eq_getElem?_getD] at h <;>
    simp [parse_artifact_level, parse_artifact_weight, hj, h]

/-- Witness for C8: a synthetic kind with sentinel level/weight -1 receives
the artifact's level, a regular kind keeps its own. -/
theorem c8_artifact_level_weight_sentinel_witness :
    lookup_kind_idx [({ tval := 7, sval := 1, level := -1, weight := -1 } :
        ObjectKind)] (7 : Int) (1 : Int) = some 0 ∧
    (((([({ tval := 7, sval := 1, level := -1, weight := -1 } :
          ObjectKind)]).getD 0 {}).level = -1 →
      parse_artifact_level
          { k_info := [{ tval := 7, sval := 1, level := -1, weight := -1 }],
            kb_info := [], arts := ({ tval := 7, sval := 1 } : Artifact) :: [] } 30 =
        (.ret .NONE,
          { k_info := listModify
              [({ tval := 7, sval := 1, level := -1, weight := -1 } : ObjectKind)] 0
              fun k => { k with level := 30 },
            kb_info := [],
            arts := ({ ({ tval := 7, sval := 1 } : Artifact) with level := 30 }) :: [] })) ∧
     (¬(([({ tval := 7, sval := 1, level := -1, weight := -1 } :
          ObjectKind)]).getD 0 {}).level = -1 →
      parse_artifact_level
          { k_info := [{ tval := 7, sval := 1, level := -1, weight := -1 }],
            kb_info := [], arts := ({ tval := 7, sval := 1 } : Artifact) :: [] } 30 =
        (.ret .NONE,
          { k_info := [{ tval := 7, sval := 1, level := -1, weight := -1 }],
            kb_info := [],
            arts := ({ ({ tval := 7, sval := 1 } : Artifact) with level := 30 }) :: [] }))) ∧
    (((([({ tval := 7, sval := 1, level := -1, weight := -1 } :
          ObjectKind)]).getD 0 {}).weight = -1 →
      parse_artifact_weight
          { k_info := [{ tval := 7, sval := 1, level := -1, weight := -1 }],
            kb_info := [], arts := ({ tval := 7, sval := 1 } : Artifact) :: [] } 20 =
        (.ret .NONE,
          { k_info := listModify
              [({ tval := 7, sval := 1, level := -1, weight := -1 } : ObjectKind)] 0
              fun k => { k with weight := 20 },
            kb_info := [],
            arts := ({ ({ tval := 7, sval := 1 } : Artifact) with weight := 20 }) :: [] })) ∧
     (¬(([({ tval := 7, sval := 1, level := -1, weight := -1 } :
          ObjectKind)]).getD 0 {}).weight = -1 →
      parse_artifact_weight
          { k_info := [{ tval := 7, sval := 1, level := -1, weight := -1 }],
            kb_info := [], arts := ({ tval := 7, sval := 1 } : Artifact) :: [] } 20 =
        (.ret .NONE,
          { k_info := [{ tval := 7, sval := 1, level := -1, weight := -1 }],
            kb_info := [],
            arts := ({ ({ tval := 7, sval := 1 } : Artifact) with weight := 20 }) :: [] }))) :=
  ⟨by decide,
    c8_artifact_level_weight_sentinel
      [{ tval := 7, sval := 1, level := -1, weight := -1 }] []
      { tval := 7, sval := 1 } [] 0 30 20 (by decide)⟩

/-- C10: after the object-kind finish phase, the record copied to index i
carries `kidx = i`, its kind-flag set contains (is a superset of) the kind
flags of its tval's object base, and its next pointer designates index i+1
(null for the last element). -/
theorem c10_finish_object_invariants (kb_info : List ObjectBase)
    (priv : List ObjectKind) (i : Nat)
    (hi : i < (finish_parse_object kb_info priv).size) :
    ((finish_parse_object kb_info priv).toList.getD i {}).kidx = i ∧
    (kb_info.getD
        ((finish_parse_object kb_info priv).toList.getD i {}).tval.toNat
        {}).kind_flags ⊆
      ((finish_parse_object kb_info priv).toList.getD i {}).kind_flags ∧
    ((finish_parse_object kb_info priv).toList.getD i {}).next =
      (if i < (finish_parse_object kb_info priv).size - 1 then some (i + 1)
       else none) := by
  have hsz : (finish_parse_object kb_info priv).size = priv.length := by
    simp [finish_parse_object]
  have hip : i < priv.length := by rw [hsz] at hi; exact hi
  have hrev : i < priv.reverse.length := by simpa using hip
  have key : (finish_parse_object kb_info priv).toList.getD i {} =
      { priv.reverse.getD i {} with
          kidx := i,
          kind_flags := (priv.reverse.getD i {}).kind_flags ∪
            (kb_info.getD (priv.reverse.getD i {}).tval.toNat {}).kind_flags,
          next := if i < priv.length - 1 then some (i + 1) else none } := by
    simp only [finish_parse_object, Array.toList_toArray]
    rw [List.getD_eq_getElem _ _ (by simpa using hip), List.getElem_map,
      List.getElem_enum, List.getD_eq_getElem _ _ hrev]
  refine ⟨?_, ?_, ?_⟩
  · rw [key]
  · rw [key]
    exact Finset.subset_union_right
  · rw [key, hsz]

/-- Witness for C10 at a two-record accumulated list over a one-base table. -/
theorem c10_finish_object_invariants_witness :
    0 < (finish_parse_object [({ tval := 0, kind_flags := {3} } : ObjectBase)]
      [({ tval := 0, kind_flags := {5} } : ObjectKind), ({ tval := 0 } : ObjectKind)]).size ∧
    (((finish_parse_object [({ tval := 0, kind_flags := {3} } : ObjectBase)]
        [({ tval := 0, kind_flags := {5} } : ObjectKind),
         ({ tval := 0 } : ObjectKind)]).toList.getD 0 {}).kidx = 0 ∧
     (([({ tval := 0, kind_flags := {3} } : ObjectBase)]).getD
        (((finish_parse_object [({ tval := 0, kind_flags := {3} } : ObjectBase)]
          [({ tval := 0, kind_flags := {5} } : ObjectKind),
           ({ tval := 0 } : ObjectKind)]).toList.getD 0 {}).tval.toNat)
        {}).kind_flags ⊆
      ((finish_parse_object [({ tval := 0, kind_flags := {3} } : ObjectBase)]
        [({ tval := 0, kind_flags := {5} } : ObjectKind),
         ({ tval := 0 } : ObjectKind)]).toList.getD 0 {}).kind_flags ∧
     ((finish_parse_object [({ tval := 0, kind_flags := {3} } : ObjectBase)]
        [({ tval := 0, kind_flags := {5} } : ObjectKind),
         ({ tval := 0 } : ObjectKind)]).toList.getD 0 {}).next =
      (if 0 < (finish_parse_object [({ tval := 0, kind_flags := {3} } : ObjectBase)]
        [({ tval := 0, kind_flags := {5} } : ObjectKind),
         ({ tval := 0 } : ObjectKind)]).size - 1 then some 1 else none)) :=
  ⟨by decide,
    c10_finish_object_invariants [{ tval := 0, kind_flags := {3} }]
      [{ tval := 0, kind_flags := {5} }, { tval := 0 }] 0 (by decide)⟩

/-- C2 (amended): when an artifact's base-object sval name is not found for an
existing tval, exactly one new object-kind row is created and appended at the
end of the kind table (which grows by one, all earlier rows unchanged); the
new row records its own array position in `kidx`, carries the
`KF_INSTA_ART` kind flag, the artifact's tval and the -1 level/weight
sentinels; and the artifact's sval is set to the new row's *sval* — the
bumped per-tval subtype count — not to the new row's array index. -/
theorem c2_artifact_dummy_kind (env : Env) (k_info : List ObjectKind)
    (kb_info : List ObjectBase) (a : Artifact) (rest : List Artifact)
    (ts ss : String) (i : Nat)
    (htv : ¬env.tvalFindIdx ts < 0)
    (hsv : lookup_sval_silent k_info (env.tvalFindIdx ts) ss < 0)
    (hkb : kb_info.findIdx? (fun kb => decide (kb.tval = env.tvalFindIdx ts)) =
      some i) :
    (parse_artifact_base_object env ⟨k_info, kb_info, a :: rest⟩ ts ss).1 =
      .ret .NONE ∧
    (parse_artifact_base_object env ⟨k_info, kb_info, a :: rest⟩ ts ss).2.k_info.length =
      k_info.length + 1 ∧
    (∀ j, j < k_info.length →
      (parse_artifact_base_object env ⟨k_info, kb_info, a :: rest⟩ ts
          ss).2.k_info.getD j {} = k_info.getD j {}) ∧
    ((parse_artifact_base_object env ⟨k_info, kb_info, a :: rest⟩ ts
        ss).2.k_info.getD k_info.length {}) =
      { tval := env.tvalFindIdx ts, name := some ("& " ++ ss ++ "~"),
        kidx := k_info.length, sval := (kb_info.getD i {}).num_svals + 1,
        d_char := '*', d_attr := COLOUR_RED, level := -1, weight := -1,
        kind_flags := insert KF_INSTA_ART ∅ } ∧
    (parse_artifact_base_object env ⟨k_info, kb_info, a :: rest⟩ ts ss).2.arts =
      { a with tval := env.tvalFindIdx ts,
               sval := (kb_info.getD i {}).num_svals + 1 } :: rest := by
  have hlen1 : (k_info ++ [({} : ObjectKind)]).length - 1 = k_info.length := by
    simp
  have hr : parse_artifact_base_object env ⟨k_info, kb_info, a :: rest⟩ ts ss =
      (.ret .NONE,
        ⟨listModify
            (listModify (k_info ++ [({} : ObjectKind)]) k_info.length
              (fun d => { d with
                  tval := env.tvalFindIdx ts,
                  name := some ("& " ++ ss ++ "~"),
                  kidx := k_info.length }))
            k_info.length
            (fun d => { d with
                sval := (kb_info.getD i {}).num_svals + 1,
                d_char := '*',
                d_attr := COLOUR_RED,
                level := -1,
                weight := -1,
                kind_flags := insert KF_INSTA_ART d.kind_flags }),
         listModify kb_info i (fun kb => { kb with num_svals := kb.num_svals + 1 }),
         { a with
             tval := env.tvalFindIdx ts,
             sval := (kb_info.getD i {}).num_svals + 1 } :: rest⟩) := by
    simp only [parse_artifact_base_object, write_dummy_object_record]
    rw [if_neg htv, if_pos hsv]
    simp [hkb, hlen1]
  have hmod1 : (listModify (k_info ++ [({} : ObjectKind)]) k_info.length
      (fun d => { d with
          tval := env.tvalFindIdx ts,
          name := some ("& " ++ ss ++ "~"),
          kidx := k_info.length })).length = k_info.length + 1 := by
    simp [length_listModify]
  refine ⟨?_, ?_, ?_, ?_, ?_⟩
  · rw [hr]
  · rw [hr]
    simp [length_listModify]
  · intro j hj
    rw [hr]
    dsimp only
    rw [listModify_getD_ne _ _ _ _ _ (by omega),
      listModify_getD_ne _ _ _ _ _ (by omega),
      getD_append_left _ _ _ _ hj]
  · rw [hr]
    dsimp only
    rw [listModify_getD_eq _ _ _ _ (by rw [hmod1]; omega),
      listModify_getD_eq _ _ _ _ (by simp),
      getD_append_last]
  · rw [hr]

/-- Counterexample to C2 as stated: with two kinds already in the table and a
fresh base of tval 7, the dummy record for an artifact whose sval name is
unknown is appended at array index 2, but the artifact's sval is set to 1 (the
bumped per-tval sval count), not to that array index. -/
theorem c2_artifact_dummy_kind_cx :
    (parse_artifact_base_object
        { tvalFindIdx := fun s => if s = "light" then 7 else -1 }
        ⟨[{ tval := 0, sval := 1, kidx := 0 }, { tval := 0, sval := 2, kidx := 1 }],
         [{ tval := 7, num_svals := 0 }], [({} : Artifact)]⟩
        "light" "Phial").1 = .ret .NONE ∧
    ((parse_artifact_base_object
        { tvalFindIdx := fun s => if s = "light" then 7 else -1 }
        ⟨[{ tval := 0, sval := 1, kidx := 0 }, { tval := 0, sval := 2, kidx := 1 }],
         [{ tval := 7, num_svals := 0 }], [({} : Artifact)]⟩
        "light" "Phial").2.k_info.getD 2 {}).kidx = 2 ∧
    ((parse_artifact_base_object
        { tvalFindIdx := fun s => if s = "light" then 7 else -1 }
        ⟨[{ tval := 0, sval := 1, kidx := 0 }, { tval := 0, sval := 2, kidx := 1 }],
         [{ tval := 7, num_svals := 0 }], [({} : Artifact)]⟩
        "light" "Phial").2.arts.headD {}).sval = 1 ∧
    ¬((parse_artifact_base_object
        { tvalFindIdx := fun s => if s = "light" then 7 else -1 }
        ⟨[{ tval := 0, sval := 1, kidx := 0 }, { tval := 0, sval := 2, kidx := 1 }],
         [{ tval := 7, num_svals := 0 }], [({} : Artifact)]⟩
        "light" "Phial").2.arts.headD {}).sval = 2 := by
  decide

/-- Witness for C2 at the same concrete state as the counterexample. -/
theorem c2_artifact_dummy_kind_witness :
    (¬({ tvalFindIdx := fun s => if s = "light" then 7 else -1 } :
        Env).tvalFindIdx "light" < 0 ∧
     lookup_sval_silent
        [({ tval := 0, sval := 1, kidx := 0 } : ObjectKind),
         { tval := 0, sval := 2, kidx := 1 }] 7 "Phial" < 0 ∧
     ([({ tval := 7, num_svals := 0 } : ObjectBase)]).findIdx?
        (fun kb => decide (kb.tval = ({ tvalFindIdx := fun s =>
          if s = "light" then 7 else -1 } : Env).tvalFindIdx "light")) = some 0) ∧
    ((parse_artifact_base_object
        { tvalFindIdx := fun s => if s = "light" then 7 else -1 }
        ⟨[{ tval := 0, sval := 1, kidx := 0 }, { tval := 0, sval := 2, kidx := 1 }],
         [{ tval := 7, num_svals := 0 }], [({} : Artifact)]⟩
        "light" "Phial").2.k_info.length = 3 ∧
     (parse_artifact_base_object
        { tvalFindIdx := fun s => if s = "light" then 7 else -1 }
        ⟨[{ tval := 0, sval := 1, kidx := 0 }, { tval := 0, sval := 2, kidx := 1 }],
         [{ tval := 7, num_svals := 0 }], [({} : Artifact)]⟩
        "light" "Phial").2.k_info.getD 2 {} =
      { tval := 7, name := some "& Phial~", kidx := 2, sval := 1, d_char := '*',
        d_attr := COLOUR_RED, level := -1, weight := -1,
        kind_flags := insert KF_INSTA_ART ∅ }) := by
  refine ⟨⟨by decide, by decide, by decide⟩, ?_, ?_⟩
  · have h := c2_artifact_dummy_kind
      { tvalFindIdx := fun s => if s = "light" then 7 else -1 }
      [{ tval := 0, sval := 1, kidx := 0 }, { tval := 0, sval := 2, kidx := 1 }]
      [{ tval := 7, num_svals := 0 }] {} [] "light" "Phial" 0
      (by decide) (by decide) (by decide)
    simpa using h.2.1
  · have h := c2_artifact_dummy_kind
      { tvalFindIdx := fun s => if s = "light" then 7 else -1 }
      [{ tval := 0, sval := 1, kidx := 0 }, { tval := 0, sval := 2, kidx := 1 }]
      [{ tval := 7, num_svals := 0 }] {} [] "light" "Phial" 0
      (by decide) (by decide) (by decide)
    simpa using h.2.2.2.1

/-- C3 (amended): a `slay`, `brand` or `curse` directive whose code/name is
absent from the already-finished target table returns the matching
unrecognised error and leaves the referencing record — in particular its
slays/brands/curses reference fields — unchanged (shown for the cited
`parse_ego_slay` and `parse_artifact_curse` together with `parse_ego_brand`);
the ego `item` directive is excluded, see the counterexample. -/
theorem c3_unrecognised_reference_checks (slays : List Slay)
    (brands : List Brand) (curses : List Curse) (e : EgoItem)
    (erest : List EgoItem) (k_info : List ObjectKind)
    (kb_info : List ObjectBase) (a : Artifact) (arest : List Artifact)
    (s1 s2 s3 : String) (pw : Int)
    (h1 : ∀ sl ∈ slays, sl.code ≠ s1)
    (h2 : ∀ b ∈ brands, b.code ≠ s2)
    (h3 : ∀ c ∈ curses, c.name ≠ some s3) :
    parse_ego_slay slays (e :: erest) s1 = (.ret .UNRECOGNISED_SLAY, e :: erest) ∧
    parse_ego_brand brands (e :: erest) s2 =
      (.ret .UNRECOGNISED_BRAND, e :: erest) ∧
    parse_artifact_curse curses ⟨k_info, kb_info, a :: arest⟩ s3 pw =
      (.ret .UNRECOGNISED_CURSE, ⟨k_info, kb_info, a :: arest⟩) := by
  refine ⟨?_, ?_, ?_⟩
  · simp [parse_ego_slay, slay_code_scan_eq_length slays s1 h1]
  · simp [parse_ego_brand, brand_code_scan_eq_length brands s2 h2]
  · simp [parse_artifact_curse, lookup_curse_eq_length curses s3 h3]

/-- Witness for C3 over one-entry slay/brand/curse tables and unknown codes. -/
theorem c3_unrecognised_reference_checks_witness :
    ((∀ sl ∈ [({ code := "ANIMAL" } : Slay)], sl.code ≠ "XXX") ∧
     (∀ b ∈ [({ code := "FIRE" } : Brand)], b.code ≠ "YYY") ∧
     (∀ c ∈ [({ name := some "vulnerability" } : Curse)], c.name ≠ some "ZZZ")) ∧
    (parse_ego_slay [{ code := "ANIMAL" }] [({} : EgoItem)] "XXX" =
      (.ret .UNRECOGNISED_SLAY, [({} : EgoItem)]) ∧
     parse_ego_brand [{ code := "FIRE" }] [({} : EgoItem)] "YYY" =
      (.ret .UNRECOGNISED_BRAND, [({} : EgoItem)]) ∧
     parse_artifact_curse [{ name := some "vulnerability" }]
        ⟨[], [], [({} : Artifact)]⟩ "ZZZ" 5 =
      (.ret .UNRECOGNISED_CURSE, ⟨[], [], [({} : Artifact)]⟩)) :=
  ⟨⟨by decide, by decide, by decide⟩,
    c3_unrecognised_reference_checks [{ code := "ANIMAL" }] [{ code := "FIRE" }]
      [{ name := some "vulnerability" }] {} [] [] [] {} [] "XXX" "YYY" "ZZZ" 5
      (by decide) (by decide) (by decide)⟩

/-- Counterexample to C3 as stated: the ego `item` directive with an sval name
absent from the kind table does not return an unrecognised error at all — the
unconditional `lookup_kind(...)->kidx` dereference of the failed lookup's null
pointer makes the callback crash. -/
theorem c3_ego_item_crash_cx :
    parse_ego_item { tvalFindIdx := fun s => if s = "helm" then 5 else -1 }
      [{ tval := 5, sval := 1, name := some "Hard Leather Cap", kidx := 1 }]
      [{ name := some "of Testing" }] "helm" "Iron Crown" =
      (.crash, [{ name := some "of Testing" }]) := by
  decide

end ObjInit
